import Mathlib

/-!
Verification development for the fast-blog repository: the FlexiDate
value-type library sketched in the BC-dates notebooks (dates with negative
years, partial precision, uncertainty markers, span arithmetic), plus the
NumPy and Astropy getter helpers defined in the notebooks.

The FlexiDate module itself (modules/flexidate.py) is referenced by the
notebook but its source is not part of the repository snapshot; the
definitions below marked "Modelled from the spec" follow the spec text
(spec.md sections 3 and 4), and the ones marked "Modelled from the
notebook transcript" follow the recorded cell outputs of the notebook,
which pin the behaviour of the work-in-progress module the notebook
imports.  The NumPy and Astropy helpers are embedded from their notebook
source directly.
-/

deriving instance DecidableEq for Except

namespace FastBlog

/-- Error kinds of the spec (section 7): ParseError for malformed text,
RangeError for structurally invalid constructor arguments. -/
inductive FlexiError
  | parseError
  | rangeError
deriving DecidableEq

/-- Python exception kinds relevant to the notebook helpers. -/
inductive PyError
  | valueError
  | indexError
deriving DecidableEq

/-- Three-way comparison of integers. -/
def compareInt (a b : Int) : Ordering :=
  if a < b then .lt else if b < a then .gt else .eq

/-- Modelled from the spec (section 3): a duration expressed as
(years, months, days), each possibly negative, with no normalization
across unit boundaries. -/
structure FlexiTimeSpan where
  years : Int
  months : Int
  days : Int
deriving DecidableEq

/-- Modelled from the spec (section 4.3): componentwise negation. -/
def FlexiTimeSpan.negate (s : FlexiTimeSpan) : FlexiTimeSpan :=
  ⟨-s.years, -s.months, -s.days⟩

/-- Modelled from the spec (section 4.3): componentwise addition. -/
def FlexiTimeSpan.add (s t : FlexiTimeSpan) : FlexiTimeSpan :=
  ⟨s.years + t.years, s.months + t.months, s.days + t.days⟩

/-- Modelled from the spec (section 4.3): componentwise subtraction. -/
def FlexiTimeSpan.subtract (s t : FlexiTimeSpan) : FlexiTimeSpan :=
  ⟨s.years - t.years, s.months - t.months, s.days - t.days⟩

/-- Modelled from the spec (section 4.3): lexicographic order on
(years, months, days). -/
def FlexiTimeSpan.lexLe (s t : FlexiTimeSpan) : Prop :=
  s.years < t.years ∨
    (s.years = t.years ∧
      (s.months < t.months ∨ (s.months = t.months ∧ s.days ≤ t.days)))

instance (s t : FlexiTimeSpan) : Decidable (s.lexLe t) := by
  unfold FlexiTimeSpan.lexLe
  infer_instance

/-- Modelled from the spec (section 4.3): three-way lexicographic
comparison of spans. -/
def FlexiTimeSpan.cmp (s t : FlexiTimeSpan) : Ordering :=
  (compareInt s.years t.years).then
    ((compareInt s.months t.months).then (compareInt s.days t.days))

/-- Modelled from the spec (sections 3 and 4.4): a pair of spans with the
invariant low ≤ high under the lexicographic order. -/
structure FlexiTimeSpanRange where
  low : FlexiTimeSpan
  high : FlexiTimeSpan
deriving DecidableEq

/-- Modelled from the spec (section 4.4): the checked constructor fails
with RangeError when low > high. -/
def FlexiTimeSpanRange.construct (low high : FlexiTimeSpan) :
    Except FlexiError FlexiTimeSpanRange :=
  if low.lexLe high then .ok ⟨low, high⟩ else .error .rangeError

/-- Modelled from the spec (section 4.4): interval addition,
[a,b] + [c,d] = [a+c, b+d]. -/
def FlexiTimeSpanRange.add (r1 r2 : FlexiTimeSpanRange) : FlexiTimeSpanRange :=
  ⟨r1.low.add r2.low, r1.high.add r2.high⟩

/-- Modelled from the spec (section 4.4): interval subtraction with
swapped bounds, [a,b] - [c,d] = [a-d, b-c]. -/
def FlexiTimeSpanRange.subtract (r1 r2 : FlexiTimeSpanRange) : FlexiTimeSpanRange :=
  ⟨r1.low.subtract r2.high, r1.high.subtract r2.low⟩

/-- Precision enumeration of the spec (section 3). -/
inductive Precision
  | YEAR
  | YEAR_MONTH
  | YEAR_MONTH_DAY
deriving DecidableEq

/-- Uncertainty enumeration of the spec (section 3). -/
inductive Uncertainty
  | EXACT
  | CIRCA
  | DECADE_UNCERTAIN
deriving DecidableEq

/-- Modelled from the spec (section 3): the FlexiDate record.  Astronomical
year numbering is used (year 0 = 1 BC), the convention the spec asks the
implementer to fix. -/
structure FlexiDate where
  year : Int
  month : Option Int
  day : Option Int
  precision : Precision
  uncertainty : Uncertainty
deriving DecidableEq

/-- Structural invariants of a FlexiDate per the spec (section 3): month
present exactly for precision at least YEAR_MONTH and in 1..12, day
present exactly for YEAR_MONTH_DAY precision and in 1..31, and a
decade-uncertain value is year precision. -/
def FlexiDate.wf (d : FlexiDate) : Prop :=
  (match d.precision, d.month, d.day with
   | .YEAR, none, none => True
   | .YEAR_MONTH, some m, none => 1 ≤ m ∧ m ≤ 12
   | .YEAR_MONTH_DAY, some m, some dd =>
       (1 ≤ m ∧ m ≤ 12) ∧ (1 ≤ dd ∧ dd ≤ 31)
   | _, _, _ => False)
  ∧ (d.uncertainty = .DECADE_UNCERTAIN → d.precision = .YEAR)

instance (d : FlexiDate) : Decidable d.wf := by
  unfold FlexiDate.wf
  rcases d with ⟨y, m, dd, p, u⟩
  rcases p <;> rcases m <;> rcases dd <;> exact inferInstanceAs (Decidable _)

/-- Modelled from the spec (section 4.1): the checked constructor.  It
fails with RangeError if month is outside 1..12, day is outside 1..31, or
day is given without month, and it infers the precision from which
optional fields are present.  A decade-uncertain value with month or day
present is likewise rejected, keeping the section 3 invariant. -/
def FlexiDate.construct (y : Int) (m? d? : Option Int) (unc : Uncertainty) :
    Except FlexiError FlexiDate :=
  match m? with
  | none =>
      match d? with
      | none => .ok ⟨y, none, none, .YEAR, unc⟩
      | some _ => .error .rangeError
  | some m =>
      match d? with
      | none =>
          if (1 ≤ m ∧ m ≤ 12) ∧ unc ≠ .DECADE_UNCERTAIN then
            .ok ⟨y, some m, none, .YEAR_MONTH, unc⟩
          else .error .rangeError
      | some dd =>
          if ((1 ≤ m ∧ m ≤ 12) ∧ (1 ≤ dd ∧ dd ≤ 31)) ∧ unc ≠ .DECADE_UNCERTAIN then
            .ok ⟨y, some m, some dd, .YEAR_MONTH_DAY, unc⟩
          else .error .rangeError

/-- Modelled from the spec (section 3): a pair of FlexiDates bounding an
uncertain date. -/
structure FlexiDateRange where
  low : FlexiDate
  high : FlexiDate
deriving DecidableEq

/-- Year-precision exact FlexiDate, used by the decade constructor. -/
def FlexiDate.ofYear (y : Int) : FlexiDate :=
  ⟨y, none, none, .YEAR, .EXACT⟩

/-- Modelled from the spec (section 4.2): the decade interval implied by
DECADE_UNCERTAIN, [FlexiDate(prefix*10), FlexiDate(prefix*10+9)]
sign-aware, so that for BC prefixes the interval runs toward
more-negative years. -/
def FlexiDateRange.fromUncertainYear (pfx : Int) : FlexiDateRange :=
  if 0 ≤ pfx then ⟨.ofYear (10 * pfx), .ofYear (10 * pfx + 9)⟩
  else ⟨.ofYear (10 * pfx - 9), .ofYear (10 * pfx)⟩

/-- Proleptic-Gregorian leap-year rule extended arithmetically over all
integers with astronomical year numbering (spec section 4.1): divisible
by 4 except centuries unless divisible by 400. -/
def isLeapYear (y : Int) : Bool :=
  (y % 4 == 0 && y % 100 != 0) || y % 400 == 0

/-- Length in days of month m (1..12) of a year with the given leap flag. -/
def monthLength (leap : Bool) (m : Int) : Int :=
  if m = 2 then (if leap then 29 else 28)
  else if m = 4 ∨ m = 6 ∨ m = 9 ∨ m = 11 then 30
  else 31

/-- Days in the months strictly before month m (1..12). -/
def cumDays (leap : Bool) (m : Int) : Int :=
  (if m = 1 then 0 else if m = 2 then 31 else if m = 3 then 59
   else if m = 4 then 90 else if m = 5 then 120 else if m = 6 then 151
   else if m = 7 then 181 else if m = 8 then 212 else if m = 9 then 243
   else if m = 10 then 273 else if m = 11 then 304 else 334)
  + (if 3 ≤ m ∧ leap = true then 1 else 0)

/-- Calendar date triple in the proleptic Gregorian calendar with
astronomical year numbering. -/
structure Date where
  year : Int
  month : Int
  day : Int
deriving DecidableEq

/-- Validity of a calendar date: month in 1..12 and day within the length
of that month of that year. -/
def Date.valid (dt : Date) : Prop :=
  1 ≤ dt.month ∧ dt.month ≤ 12 ∧ 1 ≤ dt.day ∧
    dt.day ≤ monthLength (isLeapYear dt.year) dt.month

instance (dt : Date) : Decidable dt.valid := by
  unfold Date.valid
  infer_instance

/-- Cumulative leap-day count helper: 365*y plus the number of leap years
in the range determined by y, expressed with floor divisions. -/
def gdays (y : Int) : Int :=
  365 * y + y / 4 - y / 100 + y / 400

/-- Rata-die style day number of a date: day 1 is January 1 of year 1. -/
def Date.toDays (dt : Date) : Int :=
  gdays (dt.year - 1) + cumDays (isLeapYear dt.year) dt.month + dt.day

/-- Successor date: the calendar day after dt. -/
def nextDate (dt : Date) : Date :=
  if dt.day < monthLength (isLeapYear dt.year) dt.month then
    ⟨dt.year, dt.month, dt.day + 1⟩
  else if dt.month < 12 then ⟨dt.year, dt.month + 1, 1⟩
  else ⟨dt.year + 1, 1, 1⟩

/-- Predecessor date: the calendar day before dt. -/
def prevDate (dt : Date) : Date :=
  if 1 < dt.day then ⟨dt.year, dt.month, dt.day - 1⟩
  else if 1 < dt.month then
    ⟨dt.year, dt.month - 1, monthLength (isLeapYear dt.year) (dt.month - 1)⟩
  else ⟨dt.year - 1, 12, 31⟩

/-- Lexicographic strict order on date triples (chronological order on
valid dates). -/
def dateLt (a b : Date) : Prop :=
  a.year < b.year ∨
    (a.year = b.year ∧
      (a.month < b.month ∨ (a.month = b.month ∧ a.day < b.day)))

/-- Lexicographic order on date triples. -/
def dateLe (a b : Date) : Prop :=
  dateLt a b ∨ a = b

instance (a b : Date) : Decidable (dateLt a b) := by
  unfold dateLt
  infer_instance

instance (a b : Date) : Decidable (dateLe a b) := by
  unfold dateLe
  infer_instance

/-- Modelled from the spec (section 4.1): day-overflow normalization, the
day overflow rolls into the following month using the target month day
count. -/
def normalizeDay (y m dd : Int) : Date :=
  if dd ≤ monthLength (isLeapYear y) m then ⟨y, m, dd⟩
  else if m < 12 then ⟨y, m + 1, dd - monthLength (isLeapYear y) m⟩
  else ⟨y + 1, 1, dd - monthLength (isLeapYear y) m⟩

/-- Modelled from the spec (section 4.1): add whole years, normalizing a
day overflow (February 29 to March 1 in a non-leap target year). -/
def addYears (n : Int) (dt : Date) : Date :=
  normalizeDay (dt.year + n) dt.month dt.day

/-- Modelled from the spec (section 4.1): add whole months, the month
overflow rolls into the year and the day overflow is normalized. -/
def addMonths (n : Int) (dt : Date) : Date :=
  normalizeDay (dt.year + (dt.month - 1 + n) / 12) ((dt.month - 1 + n) % 12 + 1) dt.day

/-- Add a signed number of days by iterating the successor or predecessor
date. -/
def addDaysInt (n : Int) (dt : Date) : Date :=
  if 0 ≤ n then nextDate^[n.toNat] dt else prevDate^[(-n).toNat] dt

/-- Modelled from the spec (section 4.1): addSpan adds years then months
then days, each applied with calendar-correct carry. -/
def Date.addSpan (dt : Date) (s : FlexiTimeSpan) : Date :=
  addDaysInt s.days (addMonths s.months (addYears s.years dt))

/-- Whole-year part of the canonical difference decomposition: the
largest year count whose addition to other stays at or before self. -/
def subYears (self other : Date) : Int :=
  if dateLe (addYears (self.year - other.year) other) self then
    self.year - other.year
  else self.year - other.year - 1

/-- Predicate used by the whole-month search: adding k months to x1 stays
at or before self. -/
def monthsFit (self x1 : Date) (k : Nat) : Prop :=
  dateLe (addMonths (k : Int) x1) self

instance (self x1 : Date) : DecidablePred (monthsFit self x1) := by
  intro k
  unfold monthsFit
  infer_instance

/-- Whole-month part of the canonical difference decomposition, counted
after the whole years have been added. -/
def subMonths (self other : Date) : Nat :=
  Nat.findGreatest (monthsFit self (addYears (subYears self other) other)) 13

/-- Modelled from the spec (section 4.1): subtractDate computes the
canonical (years, months, days) decomposition of the difference from
other (the second argument) to self: the largest whole-year count, then
the largest whole-month count, then a day remainder measured by day
numbers. -/
def Date.subtractDate (self other : Date) : FlexiTimeSpan :=
  ⟨subYears self other, (subMonths self other : Int),
    self.toDays -
      (addMonths (subMonths self other : Int) (addYears (subYears self other) other)).toDays⟩

/-- Calendar triple of a FlexiDate, absent fields defaulting to 1 (the
earliest instant consistent with the value). -/
def FlexiDate.toDate (d : FlexiDate) : Date :=
  ⟨d.year, d.month.getD 1, d.day.getD 1⟩

/-- Full-precision FlexiDate from a calendar triple, keeping the given
uncertainty. -/
def FlexiDate.ofDate (dt : Date) (unc : Uncertainty) : FlexiDate :=
  ⟨dt.year, some dt.month, some dt.day, .YEAR_MONTH_DAY, unc⟩

/-- Modelled from the spec (section 4.1): addSpan on a FlexiDate, by the
calendar-correct Date computation. -/
def FlexiDate.addSpan (d : FlexiDate) (s : FlexiTimeSpan) : FlexiDate :=
  .ofDate (Date.addSpan d.toDate s) d.uncertainty

/-- Modelled from the spec (section 4.1): subtractDate on FlexiDates, by
the canonical Date decomposition. -/
def FlexiDate.subtractDate (self other : FlexiDate) : FlexiTimeSpan :=
  Date.subtractDate self.toDate other.toDate

/-- Numeric index of a precision, used as a comparison tie-break. -/
def precIdx : Precision → Int
  | .YEAR => 0
  | .YEAR_MONTH => 1
  | .YEAR_MONTH_DAY => 2

/-- Numeric index of an uncertainty, used as a comparison tie-break. -/
def uncIdx : Uncertainty → Int
  | .EXACT => 0
  | .CIRCA => 1
  | .DECADE_UNCERTAIN => 2

/-- Earliest year consistent with the value (spec section 3): for a
decade-uncertain value, the sign-aware decade start; otherwise the year
itself. -/
def FlexiDate.startYear (d : FlexiDate) : Int :=
  if d.uncertainty = .DECADE_UNCERTAIN then
    (if 0 ≤ d.year then 10 * d.year else 10 * d.year - 9)
  else d.year

/-- Latest year consistent with the value (spec section 3). -/
def FlexiDate.endYear (d : FlexiDate) : Int :=
  if d.uncertainty = .DECADE_UNCERTAIN then
    (if 0 ≤ d.year then 10 * d.year + 9 else 10 * d.year)
  else d.year

/-- Modelled from the spec (sections 3 and 4.1): total three-way
comparison, primarily by the earliest instant consistent with the value
(for decade-uncertain values, the interval start), with the documented
tie-break on the remaining fields, precision and uncertainty, so that it
refines structural equality. -/
def FlexiDate.compare (a b : FlexiDate) : Ordering :=
  (compareInt a.startYear b.startYear).then
    ((compareInt (a.month.getD 0) (b.month.getD 0)).then
      ((compareInt (a.day.getD 0) (b.day.getD 0)).then
        ((compareInt (precIdx a.precision) (precIdx b.precision)).then
          ((compareInt (uncIdx a.uncertainty) (uncIdx b.uncertainty)).then
            (compareInt a.year b.year)))))

/-- Modelled from the spec (section 3): the separate containment relation
on dates, true when the year interval denoted by the second value lies
inside the year interval denoted by the first; it is deliberately not
part of equality. -/
def FlexiDate.yearRangeContains (a b : FlexiDate) : Bool :=
  decide (a.startYear ≤ b.startYear) && decide (b.endYear ≤ a.endYear)

/-- Modelled from the spec (section 4.2): bounds constructor, failing
with RangeError when low > high. -/
def FlexiDateRange.construct (low high : FlexiDate) :
    Except FlexiError FlexiDateRange :=
  if FlexiDate.compare low high = .gt then .error .rangeError else .ok ⟨low, high⟩

/-- Modelled from the spec (section 4.2): containment of a date between
the two bounds of a range. -/
def FlexiDateRange.containsDate (r : FlexiDateRange) (d : FlexiDate) : Bool :=
  !(FlexiDate.compare r.low d == .gt) && !(FlexiDate.compare d r.high == .gt)

/-- Modelled from the spec (section 4.2): addSpan applied to both bounds
independently, re-sorting the results so the low bound stays at or below
the high bound. -/
def FlexiDateRange.addSpan (r : FlexiDateRange) (s : FlexiTimeSpan) : FlexiDateRange :=
  if FlexiDate.compare (r.low.addSpan s) (r.high.addSpan s) = .gt then
    ⟨r.high.addSpan s, r.low.addSpan s⟩
  else ⟨r.low.addSpan s, r.high.addSpan s⟩

/-- Decimal digit test on characters. -/
def isDigitC (c : Char) : Bool := c.isDigit

/-- Numeric value of a decimal digit character. -/
def digitVal (c : Char) : Nat := c.toNat - 48

/-- Value of a big-endian list of digit characters. -/
def parseNatList (cs : List Char) : Nat :=
  cs.foldl (fun a c => 10 * a + digitVal c) 0

/-- Little-endian decimal digits with explicit fuel, structural so that it
evaluates inside the kernel. -/
def digitsFuel : Nat → Nat → List Nat
  | 0, _ => []
  | f + 1, n => if n = 0 then [] else n % 10 :: digitsFuel f (n / 10)

/-- Value of a little-endian digit list. -/
def ofDigitsLE : List Nat → Nat
  | [] => 0
  | d :: r => d + 10 * ofDigitsLE r

/-- Big-endian digit characters of a natural number, with a single 0 for
zero. -/
def natDigits (n : Nat) : List Char :=
  if n = 0 then ['0'] else ((digitsFuel n n).map Nat.digitChar).reverse

/-- Zero-pad a digit list on the left to at least four characters. -/
def pad4 (l : List Char) : List Char :=
  List.replicate (4 - l.length) '0' ++ l

/-- Two zero-padded digit characters of a number below 100. -/
def two2 (n : Nat) : List Char :=
  [Nat.digitChar (n / 10), Nat.digitChar (n % 10)]

/-- Strip a BC suffix: detects the two final characters B C after
whitespace was removed. -/
def splitBC (cs : List Char) : Bool × List Char :=
  match cs.reverse with
  | c1 :: c2 :: r => if c1 = 'C' ∧ c2 = 'B' then (true, r.reverse) else (false, cs)
  | _ => (false, cs)

/-- Strip one leading minus sign. -/
def splitNeg (cs : List Char) : Bool × List Char :=
  match cs with
  | c :: r => if c = '-' then (true, r) else (false, cs)
  | [] => (false, cs)

/-- Intermediate parsed form of a date text. -/
inductive DateForm
  | yearOnly (neg bc : Bool) (nd : Nat) (n : Nat)
  | decade (neg bc : Bool) (n : Nat)
  | yearMonth (neg : Bool) (y m : Nat)
  | yearMonthDay (neg : Bool) (y m dd : Nat)
deriving DecidableEq

/-- Modelled from the spec (sections 4.1 and 6): grammar recognizer over
the whitespace-stripped characters.  It accepts [-]YYYY[-MM[-DD]], a bare
digit run with BC suffix, and a decade-uncertain digit run with trailing
question mark (with optional sign or BC suffix), rejecting everything
else with ParseError. -/
def classify (cs0 : List Char) : Except FlexiError DateForm :=
  let bc := (splitBC cs0).1
  let cs1 := (splitBC cs0).2
  let neg := (splitNeg cs1).1
  let cs2 := (splitNeg cs1).2
  if bc = true ∧ neg = true then .error .parseError
  else
    let ds := cs2.takeWhile isDigitC
    let rest := cs2.dropWhile isDigitC
    if ds = [] then .error .parseError
    else
      match rest with
      | [] => .ok (.yearOnly neg bc ds.length (parseNatList ds))
      | c :: r2 =>
        if c = '?' ∧ r2 = [] then .ok (.decade neg bc (parseNatList ds))
        else if c = '-' then
          if bc = true then .error .parseError
          else
            let ms := r2.takeWhile isDigitC
            let rest2 := r2.dropWhile isDigitC
            if ms.length = 2 then
              match rest2 with
              | [] => .ok (.yearMonth neg (parseNatList ds) (parseNatList ms))
              | c2 :: r3 =>
                if c2 = '-' then
                  let dds := r3.takeWhile isDigitC
                  let rest3 := r3.dropWhile isDigitC
                  if dds.length = 2 then
                    match rest3 with
                    | [] => .ok (.yearMonthDay neg (parseNatList ds) (parseNatList ms)
                        (parseNatList dds))
                    | _ => .error .parseError
                  else .error .parseError
                else .error .parseError
            else .error .parseError
        else .error .parseError

/-- Modelled from the spec (sections 4.1 and 7): builds the FlexiDate of
a recognized form through the checking constructor.  An unsigned bare
year of at most two digits without BC suffix is ambiguous and rejected;
out-of-range month or day segments surface as ParseError. -/
def finish (f : DateForm) : Except FlexiError FlexiDate :=
  match f with
  | .yearOnly neg bc nd n =>
      if neg = false ∧ bc = false ∧ nd ≤ 2 then .error .parseError
      else FlexiDate.construct (if neg = true ∨ bc = true then -(n : Int) else (n : Int))
        none none .EXACT
  | .decade neg bc n =>
      FlexiDate.construct (if neg = true ∨ bc = true then -(n : Int) else (n : Int))
        none none .DECADE_UNCERTAIN
  | .yearMonth neg y m =>
      match FlexiDate.construct (if neg = true then -(y : Int) else (y : Int))
          (some (m : Int)) none .EXACT with
      | .ok d => .ok d
      | .error _ => .error .parseError
  | .yearMonthDay neg y m dd =>
      match FlexiDate.construct (if neg = true then -(y : Int) else (y : Int))
          (some (m : Int)) (some (dd : Int)) .EXACT with
      | .ok d => .ok d
      | .error _ => .error .parseError

/-- Modelled from the spec (section 4.1): parse, a narrow fully-specified
grammar (no generic fuzzy parser), whitespace-insensitive. -/
def parse (s : String) : Except FlexiError FlexiDate :=
  (classify (s.toList.filter (fun c => !(c == ' ')))).bind finish

/-- Modelled from the spec (section 4.1): format, the round-trip inverse
of parse.  BC years render with a leading minus zero-padded to at least
four digits; decade-uncertain renders the prefix digits with a trailing
question mark and a BC suffix when negative; circa values carry a ca.
prefix. -/
def FlexiDate.format (d : FlexiDate) : String :=
  if d.uncertainty = .DECADE_UNCERTAIN then
    String.mk (natDigits d.year.natAbs ++ ['?'] ++
      (if d.year < 0 then [' ', 'B', 'C'] else []))
  else
    String.mk
      ((if d.uncertainty = .CIRCA then ['c', 'a', '.', ' '] else []) ++
        (if d.year < 0 then ['-'] else []) ++ pad4 (natDigits d.year.natAbs) ++
        (match d.month with
         | none => []
         | some m => '-' :: two2 m.toNat) ++
        (match d.day with
         | none => []
         | some dd => '-' :: two2 dd.toNat))

/-- Modelled from the notebook transcript: dateutil, which the notebook
FlexiDate module delegates to, windows a bare two-digit year into the
second half of the 20th or first half of the 21st century. -/
def windowTwoDigitYear (n : Nat) : Nat :=
  if n < 69 then 2000 + n else 1900 + n

/-- Modelled from the notebook transcript: the year the notebook module
produces for a bare-year input with optional BC suffix.  The transcript
shows parse of the text 44 BC printing -2044 (windowed) while 144 BC
prints -0144. -/
def parseNBYear (s : String) : Int :=
  let cs := s.toList.filter (fun c => !(c == ' '))
  let bc := (splitBC cs).1
  let ds := ((splitBC cs).2).takeWhile isDigitC
  let n := parseNatList ds
  let n2 := if ds.length ≤ 2 then windowTwoDigitYear n else n
  if bc then -(n2 : Int) else (n2 : Int)

/-- Modelled from the notebook transcript: the notebook FlexiDate stores
year, month and day as zero-padded strings (the transcript getters print
-0400, 01 and 02 rather than -400, 1 and 2), so its year attribute is
the sign plus the year digits padded to four. -/
def nbYearAttr (s : String) : String :=
  match parse s with
  | .ok d => String.mk ((if d.year < 0 then ['-'] else []) ++
      pad4 (natDigits d.year.natAbs))
  | .error _ => ""

/-- Decimal text of an integer, the form printing a Python int yields. -/
def intRepr (n : Int) : String :=
  String.mk ((if n < 0 then ['-'] else []) ++ natDigits n.natAbs)

/-- Civil date from a day count relative to the Unix epoch, by the
standard era-based algorithm; this is the semantics of the numpy
datetime64 year/month/day floor casts used by dt2cal in the notebook. -/
def civilFromDays (z0 : Int) : Int × Int × Int :=
  let z := z0 + 719468
  let era := z / 146097
  let doe := z - era * 146097
  let yoe := (doe - doe / 1460 + doe / 36524 - doe / 146096) / 365
  let y := yoe + era * 400
  let doy := doe - (365 * yoe + yoe / 4 - yoe / 100)
  let mp := (5 * doy + 2) / 153
  let dd := doy - (153 * mp + 2) / 5 + 1
  let m := mp + (if mp < 10 then 3 else -9)
  (y + (if m ≤ 2 then 1 else 0), m, dd)

/-- Embedded from the notebook source (the NumPy notebook): dt2cal
converts a datetime64, modelled as a count of microseconds since the
Unix epoch, to the 7-element calendar array [year, month, day, hour,
minute, second, microsecond], each trailing component a floor difference
from the next coarser unit exactly as in the source. -/
def dt2cal (dt : Int) : List Int :=
  [(civilFromDays (dt / 86400000000)).1,
   (civilFromDays (dt / 86400000000)).2.1,
   (civilFromDays (dt / 86400000000)).2.2,
   (dt - (dt / 86400000000) * 86400000000) / 3600000000,
   (dt - (dt / 3600000000) * 3600000000) / 60000000,
   (dt - (dt / 60000000) * 60000000) / 1000000,
   dt - (dt / 1000000) * 1000000]

/-- Embedded Python list.index semantics: the first index of the element,
raising ValueError when absent; it never returns -1. -/
def pyIndex : List String → String → Except PyError Int
  | [], _ => .error .valueError
  | x :: r, t => if x = t then .ok 0 else (pyIndex r t).map (fun k => k + 1)

/-- Embedded from the notebook source (the NumPy notebook):
get_time_component for datetime64, with the source branch returning none
when the index equals -1 and the numpy array indexing raising IndexError
when out of bounds. -/
def get_time_component_np (dt : Int) (comp : String) : Except PyError (Option Int) :=
  match pyIndex ["y", "m", "d", "h", "min", "s", "ms"] comp with
  | .error e => .error e
  | .ok idx =>
      if idx = -1 then .ok none
      else
        if h : idx.toNat < (dt2cal dt).length then
          .ok (some ((dt2cal dt).get ⟨idx.toNat, h⟩))
        else .error .indexError

/-- Embedded Python str.find semantics on characters: the first index of
the character, or -1 when absent. -/
def pyFind : List Char → Char → Int
  | [], _ => -1
  | c :: r, t =>
      if c = t then 0 else (if pyFind r t = -1 then -1 else pyFind r t + 1)

/-- Modelled Python datetime.strptime with format %Y-%m-%dT%H:%M:%S.%f,
reduced to the year component: four year digits, two-digit month, day,
hour, minute and second with the datetime validity ranges (year at least
1, day within the month of the parsed year), and a fraction of one to
six digits; any mismatch is none, modelling the ValueError strptime
raises. -/
def strptimeY (cs : List Char) : Option Int :=
  match cs with
  | y3 :: y2 :: y1 :: y0 :: c1 :: m1 :: m0 :: c2 :: d1 :: d0 :: ct :: h1 :: h0 :: c3 ::
      mi1 :: mi0 :: c4 :: s1 :: s0 :: c5 :: fs =>
      if (isDigitC y3 = true ∧ isDigitC y2 = true ∧ isDigitC y1 = true ∧
            isDigitC y0 = true) ∧
         (isDigitC m1 = true ∧ isDigitC m0 = true) ∧
         (isDigitC d1 = true ∧ isDigitC d0 = true) ∧
         (isDigitC h1 = true ∧ isDigitC h0 = true) ∧
         (isDigitC mi1 = true ∧ isDigitC mi0 = true) ∧
         (isDigitC s1 = true ∧ isDigitC s0 = true) ∧
         (c1 = '-' ∧ c2 = '-' ∧ ct = 'T' ∧ c3 = ':' ∧ c4 = ':' ∧ c5 = '.') ∧
         (fs.all isDigitC = true ∧ 1 ≤ fs.length ∧ fs.length ≤ 6) ∧
         1 ≤ 1000 * digitVal y3 + 100 * digitVal y2 + 10 * digitVal y1 + digitVal y0 ∧
         (1 ≤ 10 * digitVal m1 + digitVal m0 ∧ 10 * digitVal m1 + digitVal m0 ≤ 12) ∧
         (1 ≤ 10 * digitVal d1 + digitVal d0 ∧
           ((10 * digitVal d1 + digitVal d0 : Nat) : Int) ≤
             monthLength
               (isLeapYear ((1000 * digitVal y3 + 100 * digitVal y2 +
                 10 * digitVal y1 + digitVal y0 : Nat) : Int))
               ((10 * digitVal m1 + digitVal m0 : Nat) : Int)) ∧
         10 * digitVal h1 + digitVal h0 ≤ 23 ∧
         10 * digitVal mi1 + digitVal mi0 ≤ 59 ∧
         10 * digitVal s1 + digitVal s0 ≤ 59 then
        some ((1000 * digitVal y3 + 100 * digitVal y2 + 10 * digitVal y1 +
          digitVal y0 : Nat) : Int)
      else none
  | _ => none

/-- Shared tail of the Astropy year extractor, after the BC sign was
detected and removed: when the first dash sits past index 4, take off the
leading year digit, parse the rest with strptime, fold the leading digit
back as leading times 10000, and apply the BC sign last; int() on a
non-digit leading character raises, modelled as none. -/
def astroCore (is_bc : Bool) (rep1 : List Char) : Option Int :=
  if pyFind rep1 '-' > 4 then
    match rep1 with
    | [] => none
    | c :: r =>
        match strptimeY r with
        | none => none
        | some y =>
            if isDigitC c = true then
              some (if is_bc then -(y + (digitVal c : Int) * 10000)
                else y + (digitVal c : Int) * 10000)
            else none
  else
    match strptimeY rep1 with
    | none => none
    | some y => some (if is_bc then -y else y)

/-- Embedded from the notebook source (the Astropy notebook):
get_time_component for an Astropy Time at component y, operating on the
FITS representation text of the value. -/
def get_time_component_astro_y (fits : List Char) : Option Int :=
  match fits with
  | [] => astroCore false []
  | c :: r => if c = '-' then astroCore true r else astroCore false (c :: r)

/-- The FITS text shape named by the claim: optional BC sign, four or
five big-endian year digits, then -MM-DDTHH:MM:SS.fff from two-digit
fields and fraction digits. -/
def renderFits (bc : Bool) (ydigits : List Nat) (mo dd h mi s : Nat)
    (frac : List Nat) : List Char :=
  (if bc then ['-'] else []) ++ ydigits.map Nat.digitChar ++
    '-' :: (two2 mo ++ '-' :: (two2 dd ++ 'T' :: (two2 h ++ ':' :: (two2 mi ++
      ':' :: (two2 s ++ '.' :: frac.map Nat.digitChar)))))

/-- Value of a big-endian digit list. -/
def natOfDigitsBE (l : List Nat) : Nat :=
  l.foldl (fun a d => 10 * a + d) 0

theorem monthLength_bounds (L : Bool) (m : Int) (h1 : 1 ≤ m) (h2 : m ≤ 12) :
    28 ≤ monthLength L m ∧ monthLength L m ≤ 31 := by
  unfold monthLength
  split_ifs <;> omega

theorem cumDays_nonneg (L : Bool) (m : Int) (h1 : 1 ≤ m) (h2 : m ≤ 12) :
    0 ≤ cumDays L m := by
  interval_cases m <;> cases L <;> decide

theorem cum_add_len (L : Bool) (m : Int) (h1 : 1 ≤ m) (h2 : m ≤ 11) :
    cumDays L m + monthLength L m = cumDays L (m + 1) := by
  interval_cases m <;> cases L <;> decide

theorem cum_year (L : Bool) :
    cumDays L 12 + monthLength L 12 = 365 + (if L = true then 1 else 0) := by
  cases L <;> decide

theorem cum_mono (L : Bool) (m1 m2 : Int) (h1 : 1 ≤ m1) (h2 : m1 < m2)
    (h3 : m2 ≤ 12) : cumDays L m1 + monthLength L m1 ≤ cumDays L m2 := by
  have hu : m1 ≤ 11 := by omega
  interval_cases m1 <;> interval_cases m2 <;> cases L <;> decide

theorem doy_bounds (L : Bool) (m d : Int) (h1 : 1 ≤ m) (h2 : m ≤ 12)
    (h3 : 1 ≤ d) (h4 : d ≤ monthLength L m) :
    1 ≤ cumDays L m + d ∧ cumDays L m + d ≤ 365 + (if L = true then 1 else 0) := by
  have hn := cumDays_nonneg L m h1 h2
  rcases lt_or_le m 12 with hm | hm
  · have hc := cum_mono L m 12 h1 hm (by omega)
    have hy := cum_year L
    have hb := monthLength_bounds L 12 (by omega) (by omega)
    omega
  · have hm12 : m = 12 := by omega
    subst hm12
    have hy := cum_year L
    omega

theorem isLeapYear_iff (y : Int) :
    isLeapYear y = true ↔ ((y % 4 = 0 ∧ ¬ y % 100 = 0) ∨ y % 400 = 0) := by
  simp [isLeapYear, Bool.or_eq_true, Bool.and_eq_true, beq_iff_eq, bne_iff_ne]

theorem gdays_step (y : Int) :
    gdays y = gdays (y - 1) + 365 + (if isLeapYear y = true then 1 else 0) := by
  by_cases h : isLeapYear y = true
  · rw [if_pos h]
    rw [isLeapYear_iff] at h
    unfold gdays
    omega
  · rw [if_neg h]
    rw [isLeapYear_iff] at h
    unfold gdays
    omega

theorem gdays_mono (y1 y2 : Int) (h : y1 ≤ y2) : gdays y1 ≤ gdays y2 := by
  unfold gdays
  omega

theorem nextDate_valid (dt : Date) (h : dt.valid) : (nextDate dt).valid := by
  obtain ⟨h1, h2, h3, h4⟩ := h
  unfold nextDate
  split_ifs with hd hm
  · exact ⟨h1, h2, by dsimp only; omega, by dsimp only; omega⟩
  · have := monthLength_bounds (isLeapYear dt.year) (dt.month + 1) (by omega) (by omega)
    exact ⟨by dsimp only; omega, by dsimp only; omega, by dsimp only; omega,
      by dsimp only; omega⟩
  · have : monthLength (isLeapYear (dt.year + 1)) 1 = 31 := by
      unfold monthLength
      norm_num
    exact ⟨by dsimp only; omega, by dsimp only; omega, by dsimp only; omega,
      by dsimp only; omega⟩

theorem toDays_nextDate (dt : Date) (h : dt.valid) :
    (nextDate dt).toDays = dt.toDays + 1 := by
  obtain ⟨h1, h2, h3, h4⟩ := h
  unfold nextDate
  split_ifs with hd hm
  · simp only [Date.toDays]
    omega
  · have hdl : dt.day = monthLength (isLeapYear dt.year) dt.month := by omega
    have hc := cum_add_len (isLeapYear dt.year) dt.month h1 (by omega)
    simp only [Date.toDays]
    omega
  · have hm12 : dt.month = 12 := by omega
    have hdl : dt.day = monthLength (isLeapYear dt.year) dt.month := by omega
    have hy := cum_year (isLeapYear dt.year)
    have hg : gdays (dt.year + 1 - 1) =
        gdays (dt.year - 1) + 365 + (if isLeapYear dt.year = true then 1 else 0) := by
      have := gdays_step dt.year
      simpa using this
    have hc1 : cumDays (isLeapYear (dt.year + 1)) 1 = 0 := by
      cases hL : isLeapYear (dt.year + 1) <;> simp [cumDays]
    simp only [Date.toDays, hm12] at *
    omega

theorem toDays_lt_of_dateLt (a b : Date) (ha : a.valid) (hb : b.valid)
    (h : dateLt a b) : a.toDays < b.toDays := by
  obtain ⟨ha1, ha2, ha3, ha4⟩ := ha
  obtain ⟨hb1, hb2, hb3, hb4⟩ := hb
  unfold dateLt at h
  unfold Date.toDays
  rcases h with hy | ⟨hy, h⟩
  · have hda := doy_bounds (isLeapYear a.year) a.month a.day ha1 ha2 ha3 ha4
    have hdb := doy_bounds (isLeapYear b.year) b.month b.day hb1 hb2 hb3 hb4
    have hga := gdays_step a.year
    have hgm := gdays_mono a.year (b.year - 1) (by omega)
    omega
  · rw [hy]
    rcases h with hm | ⟨hm, hd⟩
    · have hc := cum_mono (isLeapYear b.year) a.month b.month (by omega) hm hb2
      rw [hy] at ha4
      omega
    · rw [hm]
      omega

theorem dateLt_trichotomy (a b : Date) : dateLt a b ∨ a = b ∨ dateLt b a := by
  have hext : a = b ↔ a.year = b.year ∧ a.month = b.month ∧ a.day = b.day := by
    constructor
    · intro h
      simp [h]
    · rintro ⟨h1, h2, h3⟩
      cases a
      cases b
      simp_all
  unfold dateLt
  rw [hext]
  omega

theorem toDays_inj (a b : Date) (ha : a.valid) (hb : b.valid)
    (h : a.toDays = b.toDays) : a = b := by
  rcases dateLt_trichotomy a b with hlt | heq | hgt
  · have := toDays_lt_of_dateLt a b ha hb hlt
    omega
  · exact heq
  · have := toDays_lt_of_dateLt b a hb ha hgt
    omega

theorem toDays_le_of_dateLe (a b : Date) (ha : a.valid) (hb : b.valid)
    (h : dateLe a b) : a.toDays ≤ b.toDays := by
  rcases h with hlt | heq
  · exact le_of_lt (toDays_lt_of_dateLt a b ha hb hlt)
  · rw [heq]

theorem iterate_nextDate_valid (n : Nat) (dt : Date) (h : dt.valid) :
    (nextDate^[n] dt).valid := by
  induction n generalizing dt with
  | zero => simpa
  | succ k ih =>
      rw [Function.iterate_succ_apply]
      exact ih (nextDate dt) (nextDate_valid dt h)

theorem iterate_nextDate_toDays (n : Nat) (dt : Date) (h : dt.valid) :
    (nextDate^[n] dt).toDays = dt.toDays + n := by
  induction n generalizing dt with
  | zero => simp
  | succ k ih =>
      rw [Function.iterate_succ_apply]
      rw [ih (nextDate dt) (nextDate_valid dt h), toDays_nextDate dt h]
      omega

theorem prevDate_valid (dt : Date) (h : dt.valid) : (prevDate dt).valid := by
  obtain ⟨h1, h2, h3, h4⟩ := h
  unfold prevDate
  split_ifs with hd hm
  · exact ⟨h1, h2, by dsimp only; omega, by dsimp only; omega⟩
  · have := monthLength_bounds (isLeapYear dt.year) (dt.month - 1) (by omega) (by omega)
    exact ⟨by dsimp only; omega, by dsimp only; omega, by dsimp only; omega,
      by dsimp only; omega⟩
  · have h31 : monthLength (isLeapYear (dt.year - 1)) 12 = 31 := by
      unfold monthLength
      norm_num
    exact ⟨by dsimp only; omega, by dsimp only; omega, by dsimp only; omega,
      by dsimp only; omega⟩

theorem iterate_prevDate_valid (n : Nat) (dt : Date) (h : dt.valid) :
    (prevDate^[n] dt).valid := by
  induction n generalizing dt with
  | zero => simpa
  | succ k ih =>
      rw [Function.iterate_succ_apply]
      exact ih (prevDate dt) (prevDate_valid dt h)

theorem normalizeDay_valid (y m dd : Int) (h1 : 1 ≤ m) (h2 : m ≤ 12)
    (h3 : 1 ≤ dd) (h4 : dd ≤ 31) : (normalizeDay y m dd).valid := by
  unfold normalizeDay
  have hb := monthLength_bounds (isLeapYear y) m h1 h2
  split_ifs with ha hm
  · exact ⟨h1, h2, h3, by dsimp only; omega⟩
  · have hb2 := monthLength_bounds (isLeapYear y) (m + 1) (by omega) (by omega)
    exact ⟨by dsimp only; omega, by dsimp only; omega, by dsimp only; omega,
      by dsimp only; omega⟩
  · have hm12 : m = 12 := by omega
    subst hm12
    have h31 : monthLength (isLeapYear y) 12 = 31 := by
      unfold monthLength
      norm_num
    omega

theorem monthLength_twelve (L : Bool) : monthLength L 12 = 31 := by
  unfold monthLength
  norm_num

theorem day_le_31 (dt : Date) (h : dt.valid) : dt.day ≤ 31 := by
  obtain ⟨h1, h2, h3, h4⟩ := h
  have := monthLength_bounds (isLeapYear dt.year) dt.month h1 h2
  omega

theorem addYears_valid (n : Int) (dt : Date) (h : dt.valid) :
    (addYears n dt).valid := by
  obtain ⟨h1, h2, h3, h4⟩ := h
  exact normalizeDay_valid _ _ _ h1 h2 h3 (day_le_31 dt ⟨h1, h2, h3, h4⟩)

theorem addYears_year (n : Int) (dt : Date) (h : dt.valid) :
    (addYears n dt).year = dt.year + n := by
  obtain ⟨h1, h2, h3, h4⟩ := h
  unfold addYears normalizeDay
  split_ifs with ha hm
  · rfl
  · rfl
  · exfalso
    have hm12 : dt.month = 12 := by omega
    rw [hm12, monthLength_twelve] at ha
    rw [hm12, monthLength_twelve] at h4
    omega

theorem addMonths_valid (n : Int) (dt : Date) (h : dt.valid) :
    (addMonths n dt).valid := by
  have h31 := day_le_31 dt h
  obtain ⟨h1, h2, h3, h4⟩ := h
  unfold addMonths
  exact normalizeDay_valid _ _ _ (by omega) (by omega) h3 h31

theorem addMonths_zero (dt : Date) (h : dt.valid) : addMonths 0 dt = dt := by
  obtain ⟨h1, h2, h3, h4⟩ := h
  unfold addMonths
  have hq : (dt.month - 1 + 0) / 12 = 0 := by omega
  have hr : (dt.month - 1 + 0) % 12 = dt.month - 1 := by omega
  rw [hq, hr]
  unfold normalizeDay
  have hm : dt.month - 1 + 1 = dt.month := by omega
  have hy : dt.year + 0 = dt.year := by omega
  rw [hm, hy]
  rw [if_pos h4]

theorem subtractDate_right_inverse (d e : Date) (hd : d.valid) (he : e.valid)
    (hle : dateLe d e) : Date.addSpan d (Date.subtractDate e d) = e := by
  have hx1v : (addYears (subYears e d) d).valid := addYears_valid _ _ hd
  have hx1le : dateLe (addYears (subYears e d) d) e := by
    unfold subYears
    split_ifs with hc
    · exact hc
    · left
      unfold dateLt
      left
      rw [addYears_year _ _ hd]
      have hyy : ¬ dateLe (addYears (e.year - d.year) d) e := hc
      omega
  have hP0 : monthsFit e (addYears (subYears e d) d) 0 := by
    unfold monthsFit
    have hc : ((0 : Nat) : Int) = 0 := rfl
    rw [hc, addMonths_zero _ hx1v]
    exact hx1le
  have hx2le : dateLe (addMonths ((subMonths e d : Nat) : Int)
      (addYears (subYears e d) d)) e := by
    have hspec := Nat.findGreatest_spec (Nat.zero_le 13) hP0
    unfold monthsFit at hspec
    exact hspec
  have hx2v : (addMonths ((subMonths e d : Nat) : Int)
      (addYears (subYears e d) d)).valid := addMonths_valid _ _ hx1v
  have hrem0 : 0 ≤ e.toDays -
      (addMonths ((subMonths e d : Nat) : Int) (addYears (subYears e d) d)).toDays := by
    have := toDays_le_of_dateLe _ _ hx2v he hx2le
    omega
  show addDaysInt
      (e.toDays -
        (addMonths ((subMonths e d : Nat) : Int) (addYears (subYears e d) d)).toDays)
      (addMonths ((subMonths e d : Nat) : Int) (addYears (subYears e d) d)) = e
  unfold addDaysInt
  rw [if_pos hrem0]
  apply toDays_inj _ _ (iterate_nextDate_valid _ _ hx2v) he
  rw [iterate_nextDate_toDays _ _ hx2v]
  rw [Int.toNat_of_nonneg hrem0]
  omega

theorem addDaysInt_valid (n : Int) (dt : Date) (h : dt.valid) :
    (addDaysInt n dt).valid := by
  unfold addDaysInt
  split_ifs
  · exact iterate_nextDate_valid _ _ h
  · exact iterate_prevDate_valid _ _ h

theorem addSpan_valid (dt : Date) (s : FlexiTimeSpan) (h : dt.valid) :
    (Date.addSpan dt s).valid :=
  addDaysInt_valid _ _ (addMonths_valid _ _ (addYears_valid _ _ h))

theorem compareInt_self (a : Int) : compareInt a a = .eq := by
  unfold compareInt
  simp

theorem compareInt_eq_iff (a b : Int) : compareInt a b = .eq ↔ a = b := by
  unfold compareInt
  split_ifs with h1 h2
  · constructor
    · intro h
      cases h
    · intro h
      omega
  · constructor
    · intro h
      cases h
    · intro h
      omega
  · constructor
    · intro h
      omega
    · intro h
      rfl

theorem swap_compareInt (a b : Int) : (compareInt a b).swap = compareInt b a := by
  unfold compareInt
  split_ifs <;> first | rfl | omega

theorem othen_swap (o1 o2 : Ordering) : (o1.then o2).swap = o1.swap.then o2.swap := by
  cases o1 <;> cases o2 <;> rfl

theorem othen_eq_iff (o1 o2 : Ordering) : o1.then o2 = .eq ↔ o1 = .eq ∧ o2 = .eq := by
  cases o1 <;> cases o2 <;> decide

theorem swap_eq_gt (o : Ordering) : o.swap = .gt ↔ o = .lt := by
  cases o <;> decide

theorem swap_eq_lt (o : Ordering) : o.swap = .lt ↔ o = .gt := by
  cases o <;> decide

theorem precIdx_inj (p q : Precision) (h : precIdx p = precIdx q) : p = q := by
  cases p <;> cases q <;> first | rfl | (exfalso; simp only [precIdx] at h; omega)

theorem uncIdx_inj (u v : Uncertainty) (h : uncIdx u = uncIdx v) : u = v := by
  cases u <;> cases v <;> first | rfl | (exfalso; simp only [uncIdx] at h; omega)

theorem compare_swap (a b : FlexiDate) :
    FlexiDate.compare b a = (FlexiDate.compare a b).swap := by
  unfold FlexiDate.compare
  rw [othen_swap, swap_compareInt]
  congr 1
  rw [othen_swap, swap_compareInt]
  congr 1
  rw [othen_swap, swap_compareInt]
  congr 1
  rw [othen_swap, swap_compareInt]
  congr 1
  rw [othen_swap, swap_compareInt]
  congr 1
  rw [swap_compareInt]

theorem compare_self (a : FlexiDate) : FlexiDate.compare a a = .eq := by
  unfold FlexiDate.compare
  rw [compareInt_self, compareInt_self, compareInt_self, compareInt_self,
    compareInt_self, compareInt_self]
  rfl

theorem compare_eq_iff (a b : FlexiDate) (ha : a.wf) (hb : b.wf) :
    FlexiDate.compare a b = .eq ↔ a = b := by
  constructor
  · intro h
    unfold FlexiDate.compare at h
    rw [othen_eq_iff] at h
    obtain ⟨h1, h⟩ := h
    rw [othen_eq_iff] at h
    obtain ⟨h2, h⟩ := h
    rw [othen_eq_iff] at h
    obtain ⟨h3, h⟩ := h
    rw [othen_eq_iff] at h
    obtain ⟨h4, h⟩ := h
    rw [othen_eq_iff] at h
    obtain ⟨h5, h6⟩ := h
    rw [compareInt_eq_iff] at h2 h3 h4 h5 h6
    have hp := precIdx_inj _ _ h4
    have hu := uncIdx_inj _ _ h5
    obtain ⟨hsa, _⟩ := ha
    obtain ⟨hsb, _⟩ := hb
    rcases a with ⟨ya, ma, da, pa, ua⟩
    rcases b with ⟨yb, mb, db, pb, ub⟩
    dsimp at h2 h3 h6 hp hu hsa hsb
    subst hp
    subst hu
    subst h6
    cases pa <;> rcases ma with _ | m1 <;> rcases mb with _ | m2 <;>
      rcases da with _ | d1 <;> rcases db with _ | d2 <;> simp_all
  · intro h
    subst h
    exact compare_self a

theorem rangeAddSpan_sorted (r : FlexiDateRange) (s : FlexiTimeSpan) :
    ¬ FlexiDate.compare (FlexiDateRange.addSpan r s).low
        (FlexiDateRange.addSpan r s).high = .gt := by
  unfold FlexiDateRange.addSpan
  split_ifs with h
  · dsimp only
    rw [compare_swap, h]
    decide
  · dsimp only
    exact h

theorem spanLexLe_add_mono (a b c d : FlexiTimeSpan) (h1 : a.lexLe b)
    (h2 : c.lexLe d) : (a.add c).lexLe (b.add d) := by
  rcases a with ⟨a1, a2, a3⟩
  rcases b with ⟨b1, b2, b3⟩
  rcases c with ⟨c1, c2, c3⟩
  rcases d with ⟨d1, d2, d3⟩
  unfold FlexiTimeSpan.lexLe FlexiTimeSpan.add at *
  dsimp at *
  omega

theorem spanLexLe_sub_mono (a b c d : FlexiTimeSpan) (h1 : a.lexLe b)
    (h2 : c.lexLe d) : (a.subtract d).lexLe (b.subtract c) := by
  rcases a with ⟨a1, a2, a3⟩
  rcases b with ⟨b1, b2, b3⟩
  rcases c with ⟨c1, c2, c3⟩
  rcases d with ⟨d1, d2, d3⟩
  unfold FlexiTimeSpan.lexLe FlexiTimeSpan.subtract at *
  dsimp at *
  omega

/-- Claim C4: for FlexiTimeSpanRange values [a,b] and [c,d] with a ≤ b
and c ≤ d, add returns [a+c, b+d] and subtract returns the swapped-bound
interval [a-d, b-c], and both results again satisfy the low ≤ high
invariant of the lexicographic span order. -/
theorem c4_interval_arithmetic (a b c d : FlexiTimeSpan) (h1 : a.lexLe b)
    (h2 : c.lexLe d) :
    FlexiTimeSpanRange.add ⟨a, b⟩ ⟨c, d⟩ = ⟨a.add c, b.add d⟩ ∧
    FlexiTimeSpanRange.subtract ⟨a, b⟩ ⟨c, d⟩ = ⟨a.subtract d, b.subtract c⟩ ∧
    (FlexiTimeSpanRange.add ⟨a, b⟩ ⟨c, d⟩).low.lexLe
      (FlexiTimeSpanRange.add ⟨a, b⟩ ⟨c, d⟩).high ∧
    (FlexiTimeSpanRange.subtract ⟨a, b⟩ ⟨c, d⟩).low.lexLe
      (FlexiTimeSpanRange.subtract ⟨a, b⟩ ⟨c, d⟩).high := by
  refine ⟨rfl, rfl, ?_, ?_⟩
  · exact spanLexLe_add_mono a b c d h1 h2
  · exact spanLexLe_sub_mono a b c d h1 h2

/-- Witness for claim C4, at the year-only spans of the notebook
scenario: [21,39] + [49,61] = [70,100] and [49,61] - [21,39] = [10,40]. -/
theorem c4_interval_arithmetic_witness :
    FlexiTimeSpanRange.add ⟨⟨21, 0, 0⟩, ⟨39, 0, 0⟩⟩ ⟨⟨49, 0, 0⟩, ⟨61, 0, 0⟩⟩ =
      ⟨⟨70, 0, 0⟩, ⟨100, 0, 0⟩⟩ ∧
    FlexiTimeSpanRange.subtract ⟨⟨49, 0, 0⟩, ⟨61, 0, 0⟩⟩ ⟨⟨21, 0, 0⟩, ⟨39, 0, 0⟩⟩ =
      ⟨⟨10, 0, 0⟩, ⟨40, 0, 0⟩⟩ := by
  have h1 := c4_interval_arithmetic ⟨21, 0, 0⟩ ⟨39, 0, 0⟩ ⟨49, 0, 0⟩ ⟨61, 0, 0⟩
    (by decide) (by decide)
  have h2 := c4_interval_arithmetic ⟨49, 0, 0⟩ ⟨61, 0, 0⟩ ⟨21, 0, 0⟩ ⟨39, 0, 0⟩
    (by decide) (by decide)
  exact ⟨h1.1.trans (by decide), h2.2.1.trans (by decide)⟩

/-- Claim C5: fromUncertainYear (-41), denoting 41? BC, returns the
sign-aware decade interval with low year -419 and high year -410, the
decade running toward more-negative years for a BC prefix; both bounds
are year-precision exact dates and the bounds are ordered. -/
theorem c5_from_uncertain_year :
    (FlexiDateRange.fromUncertainYear (-41)).low.year = -419 ∧
    (FlexiDateRange.fromUncertainYear (-41)).high.year = -410 ∧
    (FlexiDateRange.fromUncertainYear (-41)).low = .ofYear (10 * (-41) - 9) ∧
    (FlexiDateRange.fromUncertainYear (-41)).high = .ofYear (10 * (-41)) ∧
    FlexiDate.compare (FlexiDateRange.fromUncertainYear (-41)).low
      (FlexiDateRange.fromUncertainYear (-41)).high = .lt := by
  refine ⟨?_, ?_, ?_, ?_, ?_⟩ <;> decide

/-- Claim C6: FlexiDate comparison is a trichotomous total order, with
equality holding exactly at structural equality of all five fields, and
with the year-range containment relation a separate predicate that can
hold between structurally different values whose comparison is not eq. -/
theorem c6_compare_trichotomy (a b : FlexiDate) (ha : a.wf) (hb : b.wf) :
    ((FlexiDate.compare a b = .lt ∨ a = b ∨ FlexiDate.compare a b = .gt) ∧
      ¬ (FlexiDate.compare a b = .lt ∧ a = b) ∧
      ¬ (FlexiDate.compare a b = .lt ∧ FlexiDate.compare a b = .gt) ∧
      ¬ (a = b ∧ FlexiDate.compare a b = .gt)) ∧
    (FlexiDate.compare a b = .eq ↔ a = b) ∧
    (FlexiDate.compare a b = .lt ↔ FlexiDate.compare b a = .gt) ∧
    (FlexiDate.yearRangeContains ⟨-41, none, none, .YEAR, .DECADE_UNCERTAIN⟩
        ⟨-415, none, none, .YEAR, .EXACT⟩ = true ∧
      (⟨-41, none, none, .YEAR, .DECADE_UNCERTAIN⟩ : FlexiDate) ≠
        ⟨-415, none, none, .YEAR, .EXACT⟩ ∧
      FlexiDate.compare ⟨-41, none, none, .YEAR, .DECADE_UNCERTAIN⟩
        ⟨-415, none, none, .YEAR, .EXACT⟩ ≠ .eq) := by
  have heq := compare_eq_iff a b ha hb
  have hsw : FlexiDate.compare a b = .lt ↔ FlexiDate.compare b a = .gt := by
    rw [compare_swap b a]
    exact swap_eq_lt _
  refine ⟨?_, heq, hsw, by decide, by decide, by decide⟩
  cases hc : FlexiDate.compare a b <;> simp_all

/-- Witness for claim C6, at a concrete pair of well-formed dates: the
trichotomy disjunction holds for 2020-01-02 against the year 44 BC. -/
theorem c6_compare_trichotomy_witness :
    FlexiDate.compare ⟨2020, some 1, some 2, .YEAR_MONTH_DAY, .EXACT⟩
        ⟨-44, none, none, .YEAR, .EXACT⟩ = .lt ∨
      (⟨2020, some 1, some 2, .YEAR_MONTH_DAY, .EXACT⟩ : FlexiDate) =
        ⟨-44, none, none, .YEAR, .EXACT⟩ ∨
      FlexiDate.compare ⟨2020, some 1, some 2, .YEAR_MONTH_DAY, .EXACT⟩
        ⟨-44, none, none, .YEAR, .EXACT⟩ = .gt :=
  (c6_compare_trichotomy _ _ (by decide) (by decide)).1.1

theorem digitChar_isDigit (d : Nat) (h : d < 10) :
    isDigitC (Nat.digitChar d) = true ∧ digitVal (Nat.digitChar d) = d := by
  interval_cases d <;> decide

theorem digit_ne_char (c : Char) (h : isDigitC c = true) :
    c ≠ '-' ∧ c ≠ '?' ∧ c ≠ ' ' ∧ c ≠ 'C' ∧ c ≠ 'B' := by
  refine ⟨?_, ?_, ?_, ?_, ?_⟩ <;> intro he <;> rw [he] at h <;> exact absurd h (by decide)

theorem takeWhile_all (p : Char → Bool) (l : List Char) (h : ∀ c ∈ l, p c = true) :
    l.takeWhile p = l := by
  induction l with
  | nil => rfl
  | cons c t ih =>
      have hc : p c = true := h c (by simp)
      have ht := ih (fun x hx => h x (by simp [hx]))
      simp [List.takeWhile_cons, hc, ht]

theorem dropWhile_all (p : Char → Bool) (l : List Char) (h : ∀ c ∈ l, p c = true) :
    l.dropWhile p = [] := by
  induction l with
  | nil => rfl
  | cons c t ih =>
      have hc : p c = true := h c (by simp)
      have ht := ih (fun x hx => h x (by simp [hx]))
      simp [List.dropWhile_cons, hc, ht]

theorem takeWhile_append_stop (p : Char → Bool) (l r : List Char) (x : Char)
    (h : ∀ c ∈ l, p c = true) (hx : p x = false) :
    (l ++ x :: r).takeWhile p = l := by
  induction l with
  | nil =>
      simp [List.takeWhile_cons, hx]
  | cons c t ih =>
      have hc : p c = true := h c (by simp)
      have ht := ih (fun y hy => h y (by simp [hy]))
      simp [List.takeWhile_cons, hc, ht]

theorem dropWhile_append_stop (p : Char → Bool) (l r : List Char) (x : Char)
    (h : ∀ c ∈ l, p c = true) (hx : p x = false) :
    (l ++ x :: r).dropWhile p = x :: r := by
  induction l with
  | nil =>
      simp [List.dropWhile_cons, hx]
  | cons c t ih =>
      have hc : p c = true := h c (by simp)
      have ht := ih (fun y hy => h y (by simp [hy]))
      simp [List.dropWhile_cons, hc, ht]

theorem parseNat_cons_zero (t : List Char) :
    parseNatList ('0' :: t) = parseNatList t := by
  unfold parseNatList
  rw [List.foldl_cons]
  have h0 : 10 * 0 + digitVal '0' = 0 := by decide
  rw [h0]

theorem parseNat_zeros (k : Nat) (l : List Char) :
    parseNatList (List.replicate k '0' ++ l) = parseNatList l := by
  induction k with
  | zero => rfl
  | succ j ih =>
      rw [List.replicate_succ, List.cons_append, parseNat_cons_zero]
      exact ih

theorem parseNat_concat (l : List Char) (c : Char) :
    parseNatList (l ++ [c]) = 10 * parseNatList l + digitVal c := by
  unfold parseNatList
  rw [List.foldl_append]
  rfl

theorem ofDigitsLE_digitsFuel (f : Nat) : ∀ n : Nat, n ≤ f →
    ofDigitsLE (digitsFuel f n) = n := by
  induction f with
  | zero =>
      intro n hn
      have : n = 0 := by omega
      subst this
      rfl
  | succ j ih =>
      intro n hn
      unfold digitsFuel
      split_ifs with h0
      · subst h0
        rfl
      · unfold ofDigitsLE
        rw [ih (n / 10) (by omega)]
        omega

theorem digitsFuel_lt_ten (f : Nat) : ∀ (n : Nat), ∀ d ∈ digitsFuel f n, d < 10 := by
  induction f with
  | zero =>
      intro n d hd
      cases hd
  | succ j ih =>
      intro n d hd
      unfold digitsFuel at hd
      split_ifs at hd with h0
      · cases hd
      · rcases List.mem_cons.mp hd with h | h
        · subst h
          omega
        · exact ih (n / 10) d h

theorem ofDigitsLE_cons (d : Nat) (r : List Nat) :
    ofDigitsLE (d :: r) = d + 10 * ofDigitsLE r := rfl

theorem parseNat_reverse_map (l : List Nat) (h : ∀ d ∈ l, d < 10) :
    parseNatList ((l.map Nat.digitChar).reverse) = ofDigitsLE l := by
  induction l with
  | nil => rfl
  | cons d r ih =>
      rw [List.map_cons, List.reverse_cons, parseNat_concat]
      rw [ih (fun x hx => h x (by simp [hx]))]
      rw [(digitChar_isDigit d (h d (by simp))).2, ofDigitsLE_cons]
      omega

theorem natDigits_spec (n : Nat) :
    parseNatList (natDigits n) = n ∧ (∀ c ∈ natDigits n, isDigitC c = true) ∧
      natDigits n ≠ [] := by
  unfold natDigits
  split_ifs with h0
  · subst h0
    refine ⟨by decide, ?_, by decide⟩
    intro c hc
    rcases List.mem_singleton.mp hc with rfl
    decide
  · refine ⟨?_, ?_, ?_⟩
    · rw [parseNat_reverse_map _ (digitsFuel_lt_ten n n)]
      exact ofDigitsLE_digitsFuel n n (le_refl n)
    · intro c hc
      rw [List.mem_reverse, List.mem_map] at hc
      obtain ⟨d, hd, rfl⟩ := hc
      exact (digitChar_isDigit d (digitsFuel_lt_ten n n d hd)).1
    · intro hcon
      rw [List.reverse_eq_nil_iff, List.map_eq_nil_iff] at hcon
      obtain ⟨m, rfl⟩ := Nat.exists_eq_succ_of_ne_zero h0
      unfold digitsFuel at hcon
      rw [if_neg h0] at hcon
      cases hcon

theorem pad4_spec (l : List Char) (h : ∀ c ∈ l, isDigitC c = true) :
    parseNatList (pad4 l) = parseNatList l ∧
      (∀ c ∈ pad4 l, isDigitC c = true) ∧ 4 ≤ (pad4 l).length := by
  refine ⟨parseNat_zeros _ l, ?_, ?_⟩
  · intro c hc
    rcases List.mem_append.mp hc with hrep | hl
    · rw [List.eq_of_mem_replicate hrep]
      decide
    · exact h c hl
  · unfold pad4
    rw [List.length_append, List.length_replicate]
    omega

theorem two2_spec (n : Nat) (h : n < 100) :
    parseNatList (two2 n) = n ∧ (∀ c ∈ two2 n, isDigitC c = true) ∧
      (two2 n).length = 2 := by
  have h1 : n / 10 < 10 := by omega
  have h2 : n % 10 < 10 := by omega
  have d1 := digitChar_isDigit _ h1
  have d2 := digitChar_isDigit _ h2
  refine ⟨?_, ?_, rfl⟩
  · show parseNatList ([Nat.digitChar (n / 10)] ++ [Nat.digitChar (n % 10)]) = n
    rw [parseNat_concat]
    have hone : parseNatList [Nat.digitChar (n / 10)] = n / 10 := by
      show parseNatList ([] ++ [Nat.digitChar (n / 10)]) = n / 10
      rw [parseNat_concat, d1.2]
      have hz : parseNatList [] = 0 := rfl
      omega
    rw [hone, d2.2]
    omega
  · intro c hc
    rcases List.mem_cons.mp hc with rfl | hc
    · exact d1.1
    · rcases List.mem_singleton.mp hc with rfl
      exact d2.1

theorem splitBC_suffixBC (l : List Char) : splitBC (l ++ ['B', 'C']) = (true, l) := by
  simp [splitBC]

theorem splitBC_of_getLast (cs : List Char) (x : Char) (hg : cs.getLast? = some x)
    (hx : ¬ x = 'C') : splitBC cs = (false, cs) := by
  have hrev : cs.reverse.head? = some x := by
    rw [List.head?_reverse]
    exact hg
  rcases hr : cs.reverse with _ | ⟨c1, t⟩
  · rw [hr] at hrev
    cases hrev
  · rw [hr] at hrev
    have hc1 : c1 = x := by simpa using hrev
    unfold splitBC
    rw [hr]
    rcases t with _ | ⟨c2, r⟩
    · rfl
    · show (if c1 = 'C' ∧ c2 = 'B' then ((true, r.reverse) : Bool × List Char)
          else (false, cs)) = (false, cs)
      rw [if_neg (fun hc => hx (hc1.symm.trans hc.1))]

theorem splitNeg_dash (r : List Char) : splitNeg ('-' :: r) = (true, r) := by
  simp [splitNeg]

theorem splitNeg_no (c : Char) (r : List Char) (h : ¬ c = '-') :
    splitNeg (c :: r) = (false, c :: r) := by
  simp [splitNeg, h]

theorem snoc_of_ne_nil (l : List Char) (hne : l ≠ []) : ∃ t x, l = t ++ [x] := by
  rcases List.eq_nil_or_concat l with h | ⟨t, x, h⟩
  · exact absurd h hne
  · exact ⟨t, x, by simpa [List.concat_eq_append] using h⟩

theorem cons_of_ne_nil (l : List Char) (hne : l ≠ []) : ∃ c t, l = c :: t := by
  rcases l with _ | ⟨c, t⟩
  · exact absurd rfl hne
  · exact ⟨c, t, rfl⟩

theorem getLast_digit (l : List Char) (hne : l ≠ [])
    (hd : ∀ c ∈ l, isDigitC c = true) :
    ∃ x, l.getLast? = some x ∧ isDigitC x = true := by
  obtain ⟨t, x, hsnoc⟩ := snoc_of_ne_nil l hne
  refine ⟨x, ?_, hd x (by simp [hsnoc])⟩
  rw [hsnoc]
  exact List.getLast?_concat t

theorem classify_digits (l : List Char) (hne : l ≠ [])
    (hd : ∀ c ∈ l, isDigitC c = true) :
    classify l = .ok (.yearOnly false false l.length (parseNatList l)) := by
  obtain ⟨x, hlast, hxdig⟩ := getLast_digit l hne hd
  have hBC := splitBC_of_getLast l x hlast (digit_ne_char x hxdig).2.2.2.1
  obtain ⟨c0, t0, hcons⟩ := cons_of_ne_nil l hne
  have hc0 : isDigitC c0 = true := hd c0 (by simp [hcons])
  have hSN : splitNeg l = (false, l) := by
    rw [hcons]
    exact splitNeg_no c0 t0 (digit_ne_char c0 hc0).1
  unfold classify
  rw [hBC]
  dsimp only
  rw [hSN]
  dsimp only
  rw [takeWhile_all isDigitC l hd, dropWhile_all isDigitC l hd]
  rw [if_neg (by simp), if_neg hne]

theorem classify_dash_digits (l : List Char) (hne : l ≠ [])
    (hd : ∀ c ∈ l, isDigitC c = true) :
    classify ('-' :: l) = .ok (.yearOnly true false l.length (parseNatList l)) := by
  obtain ⟨x, hlast, hxdig⟩ := getLast_digit l hne hd
  have hlast2 : ('-' :: l).getLast? = some x := by
    rw [show ('-' :: l) = ['-'] ++ l from rfl]
    rw [List.getLast?_append_of_ne_nil _ hne]
    exact hlast
  have hBC := splitBC_of_getLast _ x hlast2 (digit_ne_char x hxdig).2.2.2.1
  unfold classify
  rw [hBC]
  dsimp only
  rw [splitNeg_dash]
  dsimp only
  rw [takeWhile_all isDigitC l hd, dropWhile_all isDigitC l hd]
  rw [if_neg (by simp), if_neg hne]

theorem classify_decade_digits (l : List Char) (hne : l ≠ [])
    (hd : ∀ c ∈ l, isDigitC c = true) :
    classify (l ++ ['?']) = .ok (.decade false false (parseNatList l)) := by
  have hlast : (l ++ ['?']).getLast? = some '?' := List.getLast?_concat l
  have hBC := splitBC_of_getLast _ '?' hlast (by decide)
  obtain ⟨c0, t0, hcons⟩ := cons_of_ne_nil l hne
  have hc0 : isDigitC c0 = true := hd c0 (by simp [hcons])
  have hSN : splitNeg (l ++ ['?']) = (false, l ++ ['?']) := by
    rw [hcons, List.cons_append]
    exact splitNeg_no c0 _ (digit_ne_char c0 hc0).1
  have hTW := takeWhile_append_stop isDigitC l [] '?' hd (by decide)
  have hDW := dropWhile_append_stop isDigitC l [] '?' hd (by decide)
  unfold classify
  rw [hBC]
  dsimp only
  rw [hSN]
  dsimp only
  rw [hTW, hDW]
  rw [if_neg (by simp), if_neg hne]
  dsimp only
  rw [if_pos ⟨rfl, rfl⟩]

theorem classify_decade_bc (l : List Char) (hne : l ≠ [])
    (hd : ∀ c ∈ l, isDigitC c = true) :
    classify (l ++ ['?', 'B', 'C']) = .ok (.decade false true (parseNatList l)) := by
  have hBC : splitBC (l ++ ['?', 'B', 'C']) = (true, l ++ ['?']) := by
    rw [show l ++ ['?', 'B', 'C'] = (l ++ ['?']) ++ ['B', 'C'] by simp]
    exact splitBC_suffixBC (l ++ ['?'])
  obtain ⟨c0, t0, hcons⟩ := cons_of_ne_nil l hne
  have hc0 : isDigitC c0 = true := hd c0 (by simp [hcons])
  have hSN : splitNeg (l ++ ['?']) = (false, l ++ ['?']) := by
    rw [hcons, List.cons_append]
    exact splitNeg_no c0 _ (digit_ne_char c0 hc0).1
  have hTW := takeWhile_append_stop isDigitC l [] '?' hd (by decide)
  have hDW := dropWhile_append_stop isDigitC l [] '?' hd (by decide)
  unfold classify
  rw [hBC]
  dsimp only
  rw [hSN]
  dsimp only
  rw [hTW, hDW]
  rw [if_neg (by simp), if_neg hne]
  dsimp only
  rw [if_pos ⟨rfl, rfl⟩]

theorem classify_ym_pos (l m2 : List Char) (hne : l ≠ [])
    (hd : ∀ c ∈ l, isDigitC c = true) (hm2d : ∀ c ∈ m2, isDigitC c = true)
    (hm2len : m2.length = 2) :
    classify (l ++ '-' :: m2) =
      .ok (.yearMonth false (parseNatList l) (parseNatList m2)) := by
  obtain ⟨a, t1, hm2c⟩ := cons_of_ne_nil m2 (by intro h; rw [h] at hm2len; cases hm2len)
  obtain ⟨b, t2, ht1c⟩ : ∃ b t2, t1 = b :: t2 := by
    rcases t1 with _ | ⟨b, t2⟩
    · rw [hm2c] at hm2len
      cases hm2len
    · exact ⟨b, t2, rfl⟩
  have ht2 : t2 = [] := by
    rw [hm2c, ht1c] at hm2len
    simpa using hm2len
  have hm2eq : m2 = [a, b] := by rw [hm2c, ht1c, ht2]
  have hbdig : isDigitC b = true := hm2d b (by simp [hm2eq])
  have hlast : (l ++ '-' :: m2).getLast? = some b := by
    rw [hm2eq, show l ++ '-' :: [a, b] = (l ++ ['-', a]) ++ [b] by simp]
    exact List.getLast?_concat _
  have hBC := splitBC_of_getLast _ b hlast (digit_ne_char b hbdig).2.2.2.1
  obtain ⟨c0, t0, hcons⟩ := cons_of_ne_nil l hne
  have hc0 : isDigitC c0 = true := hd c0 (by simp [hcons])
  have hSN : splitNeg (l ++ '-' :: m2) = (false, l ++ '-' :: m2) := by
    rw [hcons, List.cons_append]
    exact splitNeg_no c0 _ (digit_ne_char c0 hc0).1
  have hTW := takeWhile_append_stop isDigitC l m2 '-' hd (by decide)
  have hDW := dropWhile_append_stop isDigitC l m2 '-' hd (by decide)
  unfold classify
  rw [hBC]
  dsimp only
  rw [hSN]
  dsimp only
  rw [hTW, hDW]
  rw [if_neg (by simp), if_neg hne]
  dsimp only
  rw [if_neg (fun hc => absurd hc.1 (by decide)), if_pos rfl, if_neg (by decide)]
  rw [takeWhile_all isDigitC m2 hm2d, dropWhile_all isDigitC m2 hm2d]
  rw [if_pos hm2len]

theorem classify_ym_neg (l m2 : List Char) (hne : l ≠ [])
    (hd : ∀ c ∈ l, isDigitC c = true) (hm2d : ∀ c ∈ m2, isDigitC c = true)
    (hm2len : m2.length = 2) :
    classify ('-' :: (l ++ '-' :: m2)) =
      .ok (.yearMonth true (parseNatList l) (parseNatList m2)) := by
  obtain ⟨a, t1, hm2c⟩ := cons_of_ne_nil m2 (by intro h; rw [h] at hm2len; cases hm2len)
  obtain ⟨b, t2, ht1c⟩ : ∃ b t2, t1 = b :: t2 := by
    rcases t1 with _ | ⟨b, t2⟩
    · rw [hm2c] at hm2len
      cases hm2len
    · exact ⟨b, t2, rfl⟩
  have ht2 : t2 = [] := by
    rw [hm2c, ht1c] at hm2len
    simpa using hm2len
  have hm2eq : m2 = [a, b] := by rw [hm2c, ht1c, ht2]
  have hbdig : isDigitC b = true := hm2d b (by simp [hm2eq])
  have hlast : ('-' :: (l ++ '-' :: m2)).getLast? = some b := by
    rw [hm2eq, show '-' :: (l ++ '-' :: [a, b]) = ('-' :: (l ++ ['-', a])) ++ [b] by simp]
    exact List.getLast?_concat _
  have hBC := splitBC_of_getLast _ b hlast (digit_ne_char b hbdig).2.2.2.1
  have hTW := takeWhile_append_stop isDigitC l m2 '-' hd (by decide)
  have hDW := dropWhile_append_stop isDigitC l m2 '-' hd (by decide)
  unfold classify
  rw [hBC]
  dsimp only
  rw [splitNeg_dash]
  dsimp only
  rw [hTW, hDW]
  rw [if_neg (by simp), if_neg hne]
  dsimp only
  rw [if_neg (fun hc => absurd hc.1 (by decide)), if_pos rfl, if_neg (by decide)]
  rw [takeWhile_all isDigitC m2 hm2d, dropWhile_all isDigitC m2 hm2d]
  rw [if_pos hm2len]

theorem classify_ymd_pos (l m2 d2 : List Char) (hne : l ≠ [])
    (hd : ∀ c ∈ l, isDigitC c = true) (hm2d : ∀ c ∈ m2, isDigitC c = true)
    (hm2len : m2.length = 2) (hd2d : ∀ c ∈ d2, isDigitC c = true)
    (hd2len : d2.length = 2) :
    classify (l ++ '-' :: (m2 ++ '-' :: d2)) =
      .ok (.yearMonthDay false (parseNatList l) (parseNatList m2) (parseNatList d2)) := by
  obtain ⟨a, t1, hd2c⟩ := cons_of_ne_nil d2 (by intro h; rw [h] at hd2len; cases hd2len)
  obtain ⟨b, t2, ht1c⟩ : ∃ b t2, t1 = b :: t2 := by
    rcases t1 with _ | ⟨b, t2⟩
    · rw [hd2c] at hd2len
      cases hd2len
    · exact ⟨b, t2, rfl⟩
  have ht2 : t2 = [] := by
    rw [hd2c, ht1c] at hd2len
    simpa using hd2len
  have hd2eq : d2 = [a, b] := by rw [hd2c, ht1c, ht2]
  have hbdig : isDigitC b = true := hd2d b (by simp [hd2eq])
  have hlast : (l ++ '-' :: (m2 ++ '-' :: d2)).getLast? = some b := by
    rw [hd2eq, show l ++ '-' :: (m2 ++ '-' :: [a, b]) =
      (l ++ '-' :: (m2 ++ ['-', a])) ++ [b] by simp]
    exact List.getLast?_concat _
  have hBC := splitBC_of_getLast _ b hlast (digit_ne_char b hbdig).2.2.2.1
  obtain ⟨c0, t0, hcons⟩ := cons_of_ne_nil l hne
  have hc0 : isDigitC c0 = true := hd c0 (by simp [hcons])
  have hSN : splitNeg (l ++ '-' :: (m2 ++ '-' :: d2)) =
      (false, l ++ '-' :: (m2 ++ '-' :: d2)) := by
    rw [hcons, List.cons_append]
    exact splitNeg_no c0 _ (digit_ne_char c0 hc0).1
  have hTW := takeWhile_append_stop isDigitC l (m2 ++ '-' :: d2) '-' hd (by decide)
  have hDW := dropWhile_append_stop isDigitC l (m2 ++ '-' :: d2) '-' hd (by decide)
  have hTW2 := takeWhile_append_stop isDigitC m2 d2 '-' hm2d (by decide)
  have hDW2 := dropWhile_append_stop isDigitC m2 d2 '-' hm2d (by decide)
  unfold classify
  rw [hBC]
  dsimp only
  rw [hSN]
  dsimp only
  rw [hTW, hDW]
  rw [if_neg (by simp), if_neg hne]
  dsimp only
  rw [if_neg (fun hc => absurd hc.1 (by decide)), if_pos rfl, if_neg (by decide)]
  rw [hTW2, hDW2]
  rw [if_pos hm2len]
  dsimp only
  rw [if_pos rfl]
  rw [takeWhile_all isDigitC d2 hd2d, dropWhile_all isDigitC d2 hd2d]
  rw [if_pos hd2len]

theorem classify_ymd_neg (l m2 d2 : List Char) (hne : l ≠ [])
    (hd : ∀ c ∈ l, isDigitC c = true) (hm2d : ∀ c ∈ m2, isDigitC c = true)
    (hm2len : m2.length = 2) (hd2d : ∀ c ∈ d2, isDigitC c = true)
    (hd2len : d2.length = 2) :
    classify ('-' :: (l ++ '-' :: (m2 ++ '-' :: d2))) =
      .ok (.yearMonthDay true (parseNatList l) (parseNatList m2) (parseNatList d2)) := by
  obtain ⟨a, t1, hd2c⟩ := cons_of_ne_nil d2 (by intro h; rw [h] at hd2len; cases hd2len)
  obtain ⟨b, t2, ht1c⟩ : ∃ b t2, t1 = b :: t2 := by
    rcases t1 with _ | ⟨b, t2⟩
    · rw [hd2c] at hd2len
      cases hd2len
    · exact ⟨b, t2, rfl⟩
  have ht2 : t2 = [] := by
    rw [hd2c, ht1c] at hd2len
    simpa using hd2len
  have hd2eq : d2 = [a, b] := by rw [hd2c, ht1c, ht2]
  have hbdig : isDigitC b = true := hd2d b (by simp [hd2eq])
  have hlast : ('-' :: (l ++ '-' :: (m2 ++ '-' :: d2))).getLast? = some b := by
    rw [hd2eq, show '-' :: (l ++ '-' :: (m2 ++ '-' :: [a, b])) =
      ('-' :: (l ++ '-' :: (m2 ++ ['-', a]))) ++ [b] by simp]
    exact List.getLast?_concat _
  have hBC := splitBC_of_getLast _ b hlast (digit_ne_char b hbdig).2.2.2.1
  have hTW := takeWhile_append_stop isDigitC l (m2 ++ '-' :: d2) '-' hd (by decide)
  have hDW := dropWhile_append_stop isDigitC l (m2 ++ '-' :: d2) '-' hd (by decide)
  have hTW2 := takeWhile_append_stop isDigitC m2 d2 '-' hm2d (by decide)
  have hDW2 := dropWhile_append_stop isDigitC m2 d2 '-' hm2d (by decide)
  unfold classify
  rw [hBC]
  dsimp only
  rw [splitNeg_dash]
  dsimp only
  rw [hTW, hDW]
  rw [if_neg (by simp), if_neg hne]
  dsimp only
  rw [if_neg (fun hc => absurd hc.1 (by decide)), if_pos rfl, if_neg (by decide)]
  rw [hTW2, hDW2]
  rw [if_pos hm2len]
  dsimp only
  rw [if_pos rfl]
  rw [takeWhile_all isDigitC d2 hd2d, dropWhile_all isDigitC d2 hd2d]
  rw [if_pos hd2len]

theorem construct_some_none (y m : Int) (u : Uncertainty) :
    FlexiDate.construct y (some m) none u =
      (if (1 ≤ m ∧ m ≤ 12) ∧ u ≠ .DECADE_UNCERTAIN then
        .ok ⟨y, some m, none, .YEAR_MONTH, u⟩
      else .error .rangeError) := rfl

theorem construct_some_some (y m dd : Int) (u : Uncertainty) :
    FlexiDate.construct y (some m) (some dd) u =
      (if ((1 ≤ m ∧ m ≤ 12) ∧ (1 ≤ dd ∧ dd ≤ 31)) ∧ u ≠ .DECADE_UNCERTAIN then
        .ok ⟨y, some m, some dd, .YEAR_MONTH_DAY, u⟩
      else .error .rangeError) := rfl

theorem construct_props (y : Int) (m? d? : Option Int) (u : Uncertainty)
    (d : FlexiDate) (h : FlexiDate.construct y m? d? u = .ok d) :
    d.wf ∧ d.year = y ∧ d.month = m? ∧ d.day = d? ∧ d.uncertainty = u := by
  rcases m? with _ | m
  · rcases d? with _ | dd
    · unfold FlexiDate.construct at h
      cases h
      exact ⟨⟨trivial, fun _ => rfl⟩, rfl, rfl, rfl, rfl⟩
    · unfold FlexiDate.construct at h
      cases h
  · rcases d? with _ | dd
    · rw [construct_some_none] at h
      split_ifs at h with hc
      cases h
      exact ⟨⟨hc.1, fun hu => absurd hu hc.2⟩, rfl, rfl, rfl, rfl⟩
    · rw [construct_some_some] at h
      split_ifs at h with hc
      cases h
      exact ⟨⟨hc.1, fun hu => absurd hu hc.2⟩, rfl, rfl, rfl, rfl⟩

theorem parse_ok_wf (t : String) (d : FlexiDate) (h : parse t = .ok d) :
    d.wf ∧ d.uncertainty ≠ .CIRCA := by
  unfold parse at h
  rcases hc : classify (t.toList.filter fun c => !(c == ' ')) with e | f
  · rw [hc] at h
    simp [Except.bind] at h
  · rw [hc] at h
    dsimp only [Except.bind] at h
    rcases f with ⟨neg, bc, nd, n⟩ | ⟨neg, bc, n⟩ | ⟨neg, yy, mm⟩ | ⟨neg, yy, mm, dd2⟩
    · unfold finish at h
      dsimp only at h
      by_cases hamb : neg = false ∧ bc = false ∧ nd ≤ 2
      · rw [if_pos hamb] at h
        cases h
      · rw [if_neg hamb] at h
        obtain ⟨hwf, _, _, _, hu⟩ := construct_props _ _ _ _ _ h
        refine ⟨hwf, ?_⟩
        rw [hu]
        decide
    · unfold finish at h
      dsimp only at h
      obtain ⟨hwf, _, _, _, hu⟩ := construct_props _ _ _ _ _ h
      refine ⟨hwf, ?_⟩
      rw [hu]
      decide
    · unfold finish at h
      dsimp only at h
      rcases hcon : FlexiDate.construct (if neg = true then -(yy : Int) else (yy : Int))
          (some (mm : Int)) none .EXACT with e | d'
      · rw [hcon] at h
        cases h
      · rw [hcon] at h
        cases h
        obtain ⟨hwf, _, _, _, hu⟩ := construct_props _ _ _ _ _ hcon
        refine ⟨hwf, ?_⟩
        rw [hu]
        decide
    · unfold finish at h
      dsimp only at h
      rcases hcon : FlexiDate.construct (if neg = true then -(yy : Int) else (yy : Int))
          (some (mm : Int)) (some (dd2 : Int)) .EXACT with e | d'
      · rw [hcon] at h
        cases h
      · rw [hcon] at h
        cases h
        obtain ⟨hwf, _, _, _, hu⟩ := construct_props _ _ _ _ _ hcon
        refine ⟨hwf, ?_⟩
        rw [hu]
        decide

theorem nospace_filter (l : List Char) (h : ∀ c ∈ l, ¬ c = ' ') :
    l.filter (fun c => !(c == ' ')) = l :=
  List.filter_eq_self.mpr (fun c hc => by simp [h c hc])

theorem finish_yearOnly_neg (nd n : Nat) :
    finish (.yearOnly true false nd n) =
      .ok ⟨-(n : Int), none, none, .YEAR, .EXACT⟩ := by
  unfold finish
  dsimp only
  rw [if_neg (fun hc => by cases hc.1)]
  rw [if_pos (Or.inl rfl)]
  rfl

theorem finish_yearOnly_pos (nd n : Nat) (hnd : 3 ≤ nd) :
    finish (.yearOnly false false nd n) =
      .ok ⟨(n : Int), none, none, .YEAR, .EXACT⟩ := by
  unfold finish
  dsimp only
  rw [if_neg (fun hc => by omega)]
  rw [if_neg (by simp)]
  rfl

theorem finish_decade (neg bc : Bool) (n : Nat) :
    finish (.decade neg bc n) =
      .ok ⟨if neg = true ∨ bc = true then -(n : Int) else (n : Int),
        none, none, .YEAR, .DECADE_UNCERTAIN⟩ := rfl

theorem finish_ym (neg : Bool) (yy mm : Nat) (hm1 : 1 ≤ mm) (hm2 : mm ≤ 12) :
    finish (.yearMonth neg yy mm) =
      .ok ⟨if neg = true then -(yy : Int) else (yy : Int),
        some (mm : Int), none, .YEAR_MONTH, .EXACT⟩ := by
  unfold finish
  dsimp only
  rw [construct_some_none]
  rw [if_pos ⟨⟨by exact_mod_cast hm1, by exact_mod_cast hm2⟩, by decide⟩]

theorem finish_ymd (neg : Bool) (yy mm dd : Nat) (hm1 : 1 ≤ mm) (hm2 : mm ≤ 12)
    (hd1 : 1 ≤ dd) (hd2 : dd ≤ 31) :
    finish (.yearMonthDay neg yy mm dd) =
      .ok ⟨if neg = true then -(yy : Int) else (yy : Int),
        some (mm : Int), some (dd : Int), .YEAR_MONTH_DAY, .EXACT⟩ := by
  unfold finish
  dsimp only
  rw [construct_some_some]
  rw [if_pos ⟨⟨⟨by exact_mod_cast hm1, by exact_mod_cast hm2⟩,
    ⟨by exact_mod_cast hd1, by exact_mod_cast hd2⟩⟩, by decide⟩]

theorem pad4_ne_nil (l : List Char) (h : ∀ c ∈ l, isDigitC c = true) :
    pad4 l ≠ [] := by
  intro hcon
  have := (pad4_spec l h).2.2
  rw [hcon] at this
  simp at this

theorem format_parse_exact_year (y : Int) :
    parse (FlexiDate.format ⟨y, none, none, .YEAR, .EXACT⟩) =
      .ok ⟨y, none, none, .YEAR, .EXACT⟩ := by
  obtain ⟨hnparse, hndig, hnne⟩ := natDigits_spec y.natAbs
  obtain ⟨hp4, hp4d, hp4len⟩ := pad4_spec (natDigits y.natAbs) hndig
  have hp4ne := pad4_ne_nil (natDigits y.natAbs) hndig
  by_cases hy : y < 0
  · have hfmt : FlexiDate.format ⟨y, none, none, .YEAR, .EXACT⟩ =
        String.mk ('-' :: pad4 (natDigits y.natAbs)) := by
      unfold FlexiDate.format
      rw [if_neg (by simp)]
      dsimp only
      rw [if_neg (by simp), if_pos hy]
      simp
    rw [hfmt]
    unfold parse
    have htl : (String.mk ('-' :: pad4 (natDigits y.natAbs))).toList
        = '-' :: pad4 (natDigits y.natAbs) := rfl
    rw [htl]
    have hfil : ('-' :: pad4 (natDigits y.natAbs)).filter (fun c => !(c == ' ')) =
        '-' :: pad4 (natDigits y.natAbs) := by
      apply nospace_filter
      intro c hc
      rcases List.mem_cons.mp hc with rfl | hc2
      · decide
      · exact (digit_ne_char c (hp4d c hc2)).2.2.1
    rw [hfil]
    rw [classify_dash_digits _ hp4ne hp4d]
    dsimp only [Except.bind]
    rw [finish_yearOnly_neg]
    rw [hp4, hnparse]
    have hcast : -((y.natAbs : Nat) : Int) = y := by omega
    rw [hcast]
  · have hfmt : FlexiDate.format ⟨y, none, none, .YEAR, .EXACT⟩ =
        String.mk (pad4 (natDigits y.natAbs)) := by
      unfold FlexiDate.format
      rw [if_neg (by simp)]
      dsimp only
      rw [if_neg (by simp), if_neg hy]
      simp
    rw [hfmt]
    unfold parse
    have htl : (String.mk (pad4 (natDigits y.natAbs))).toList
        = pad4 (natDigits y.natAbs) := rfl
    rw [htl]
    have hfil : (pad4 (natDigits y.natAbs)).filter (fun c => !(c == ' ')) =
        pad4 (natDigits y.natAbs) := by
      apply nospace_filter
      intro c hc
      exact (digit_ne_char c (hp4d c hc)).2.2.1
    rw [hfil]
    rw [classify_digits _ hp4ne hp4d]
    dsimp only [Except.bind]
    rw [finish_yearOnly_pos _ _ (by omega)]
    rw [hp4, hnparse]
    have hcast : ((y.natAbs : Nat) : Int) = y := by omega
    rw [hcast]

theorem format_parse_decade (y : Int) :
    parse (FlexiDate.format ⟨y, none, none, .YEAR, .DECADE_UNCERTAIN⟩) =
      .ok ⟨y, none, none, .YEAR, .DECADE_UNCERTAIN⟩ := by
  obtain ⟨hnparse, hndig, hnne⟩ := natDigits_spec y.natAbs
  by_cases hy : y < 0
  · have hfmt : FlexiDate.format ⟨y, none, none, .YEAR, .DECADE_UNCERTAIN⟩ =
        String.mk (natDigits y.natAbs ++ ['?'] ++ [' ', 'B', 'C']) := by
      unfold FlexiDate.format
      rw [if_pos rfl]
      dsimp only
      rw [if_pos hy]
    rw [hfmt]
    unfold parse
    have htl : (String.mk (natDigits y.natAbs ++ ['?'] ++ [' ', 'B', 'C'])).toList
        = natDigits y.natAbs ++ ['?'] ++ [' ', 'B', 'C'] := rfl
    rw [htl]
    have h1 : (['?'] : List Char).filter (fun c => !(c == ' ')) = ['?'] := rfl
    have h2 : ([' ', 'B', 'C'] : List Char).filter (fun c => !(c == ' ')) =
        ['B', 'C'] := rfl
    have hfil : (natDigits y.natAbs ++ ['?'] ++ [' ', 'B', 'C']).filter
        (fun c => !(c == ' ')) = natDigits y.natAbs ++ ['?', 'B', 'C'] := by
      rw [List.filter_append, List.filter_append]
      rw [nospace_filter _ (fun c hc => (digit_ne_char c (hndig c hc)).2.2.1)]
      rw [h1, h2]
      simp
    rw [hfil]
    rw [classify_decade_bc _ hnne hndig]
    dsimp only [Except.bind]
    rw [finish_decade]
    rw [if_pos (Or.inr rfl), hnparse]
    have hcast : -((y.natAbs : Nat) : Int) = y := by omega
    rw [hcast]
  · have hfmt : FlexiDate.format ⟨y, none, none, .YEAR, .DECADE_UNCERTAIN⟩ =
        String.mk (natDigits y.natAbs ++ ['?']) := by
      unfold FlexiDate.format
      rw [if_pos rfl]
      dsimp only
      rw [if_neg hy]
      simp
    rw [hfmt]
    unfold parse
    have htl : (String.mk (natDigits y.natAbs ++ ['?'])).toList
        = natDigits y.natAbs ++ ['?'] := rfl
    rw [htl]
    have hfil : (natDigits y.natAbs ++ ['?']).filter (fun c => !(c == ' ')) =
        natDigits y.natAbs ++ ['?'] := by
      apply nospace_filter
      intro c hc
      rcases List.mem_append.mp hc with hc2 | hc2
      · exact (digit_ne_char c (hndig c hc2)).2.2.1
      · rcases List.mem_singleton.mp hc2 with rfl
        decide
    rw [hfil]
    rw [classify_decade_digits _ hnne hndig]
    dsimp only [Except.bind]
    rw [finish_decade]
    rw [if_neg (by simp), hnparse]
    have hcast : ((y.natAbs : Nat) : Int) = y := by omega
    rw [hcast]

theorem format_parse_ym (y m : Int) (hm : 1 ≤ m ∧ m ≤ 12) :
    parse (FlexiDate.format ⟨y, some m, none, .YEAR_MONTH, .EXACT⟩) =
      .ok ⟨y, some m, none, .YEAR_MONTH, .EXACT⟩ := by
  obtain ⟨hnparse, hndig, hnne⟩ := natDigits_spec y.natAbs
  obtain ⟨hp4, hp4d, hp4len⟩ := pad4_spec (natDigits y.natAbs) hndig
  have hp4ne := pad4_ne_nil (natDigits y.natAbs) hndig
  obtain ⟨ht2p, ht2d, ht2len⟩ := two2_spec m.toNat (by omega)
  have hmero : ∀ c ∈ pad4 (natDigits y.natAbs) ++ '-' :: two2 m.toNat, ¬ c = ' ' := by
    intro c hc
    rcases List.mem_append.mp hc with hc2 | hc2
    · exact (digit_ne_char c (hp4d c hc2)).2.2.1
    · rcases List.mem_cons.mp hc2 with rfl | hc3
      · decide
      · exact (digit_ne_char c (ht2d c hc3)).2.2.1
  have hcastm : ((m.toNat : Nat) : Int) = m := by omega
  by_cases hy : y < 0
  · have hfmt : FlexiDate.format ⟨y, some m, none, .YEAR_MONTH, .EXACT⟩ =
        String.mk ('-' :: (pad4 (natDigits y.natAbs) ++ '-' :: two2 m.toNat)) := by
      unfold FlexiDate.format
      rw [if_neg (by simp)]
      dsimp only
      rw [if_neg (by simp), if_pos hy]
      simp
    rw [hfmt]
    unfold parse
    have htl : (String.mk ('-' :: (pad4 (natDigits y.natAbs) ++ '-' :: two2 m.toNat))).toList
        = '-' :: (pad4 (natDigits y.natAbs) ++ '-' :: two2 m.toNat) := rfl
    rw [htl]
    have hfil : ('-' :: (pad4 (natDigits y.natAbs) ++ '-' :: two2 m.toNat)).filter
        (fun c => !(c == ' ')) =
        '-' :: (pad4 (natDigits y.natAbs) ++ '-' :: two2 m.toNat) := by
      apply nospace_filter
      intro c hc
      rcases List.mem_cons.mp hc with rfl | hc2
      · decide
      · exact hmero c hc2
    rw [hfil]
    rw [classify_ym_neg _ _ hp4ne hp4d ht2d ht2len]
    dsimp only [Except.bind]
    rw [hp4, hnparse, ht2p]
    rw [finish_ym _ _ _ (by omega) (by omega)]
    rw [if_pos rfl]
    have hcast : -((y.natAbs : Nat) : Int) = y := by omega
    rw [hcast, hcastm]
  · have hfmt : FlexiDate.format ⟨y, some m, none, .YEAR_MONTH, .EXACT⟩ =
        String.mk (pad4 (natDigits y.natAbs) ++ '-' :: two2 m.toNat) := by
      unfold FlexiDate.format
      rw [if_neg (by simp)]
      dsimp only
      rw [if_neg (by simp), if_neg hy]
      simp
    rw [hfmt]
    unfold parse
    have htl : (String.mk (pad4 (natDigits y.natAbs) ++ '-' :: two2 m.toNat)).toList
        = pad4 (natDigits y.natAbs) ++ '-' :: two2 m.toNat := rfl
    rw [htl]
    have hfil : (pad4 (natDigits y.natAbs) ++ '-' :: two2 m.toNat).filter
        (fun c => !(c == ' ')) = pad4 (natDigits y.natAbs) ++ '-' :: two2 m.toNat :=
      nospace_filter _ hmero
    rw [hfil]
    rw [classify_ym_pos _ _ hp4ne hp4d ht2d ht2len]
    dsimp only [Except.bind]
    rw [hp4, hnparse, ht2p]
    rw [finish_ym _ _ _ (by omega) (by omega)]
    rw [if_neg (by decide)]
    have hcast : ((y.natAbs : Nat) : Int) = y := by omega
    rw [hcast, hcastm]

theorem format_parse_ymd (y m dd : Int) (hm : 1 ≤ m ∧ m ≤ 12)
    (hd : 1 ≤ dd ∧ dd ≤ 31) :
    parse (FlexiDate.format ⟨y, some m, some dd, .YEAR_MONTH_DAY, .EXACT⟩) =
      .ok ⟨y, some m, some dd, .YEAR_MONTH_DAY, .EXACT⟩ := by
  obtain ⟨hnparse, hndig, hnne⟩ := natDigits_spec y.natAbs
  obtain ⟨hp4, hp4d, hp4len⟩ := pad4_spec (natDigits y.natAbs) hndig
  have hp4ne := pad4_ne_nil (natDigits y.natAbs) hndig
  obtain ⟨ht2p, ht2d, ht2len⟩ := two2_spec m.toNat (by omega)
  obtain ⟨hd2p, hd2d, hd2len⟩ := two2_spec dd.toNat (by omega)
  have hmero : ∀ c ∈ pad4 (natDigits y.natAbs) ++
      '-' :: (two2 m.toNat ++ '-' :: two2 dd.toNat), ¬ c = ' ' := by
    intro c hc
    rcases List.mem_append.mp hc with hc2 | hc2
    · exact (digit_ne_char c (hp4d c hc2)).2.2.1
    · rcases List.mem_cons.mp hc2 with rfl | hc3
      · decide
      · rcases List.mem_append.mp hc3 with hc4 | hc4
        · exact (digit_ne_char c (ht2d c hc4)).2.2.1
        · rcases List.mem_cons.mp hc4 with rfl | hc5
          · decide
          · exact (digit_ne_char c (hd2d c hc5)).2.2.1
  have hcastm : ((m.toNat : Nat) : Int) = m := by omega
  have hcastd : ((dd.toNat : Nat) : Int) = dd := by omega
  by_cases hy : y < 0
  · have hfmt : FlexiDate.format ⟨y, some m, some dd, .YEAR_MONTH_DAY, .EXACT⟩ =
        String.mk ('-' :: (pad4 (natDigits y.natAbs) ++
          '-' :: (two2 m.toNat ++ '-' :: two2 dd.toNat))) := by
      unfold FlexiDate.format
      rw [if_neg (by simp)]
      dsimp only
      rw [if_neg (by simp), if_pos hy]
      simp
    rw [hfmt]
    unfold parse
    have htl : (String.mk ('-' :: (pad4 (natDigits y.natAbs) ++
        '-' :: (two2 m.toNat ++ '-' :: two2 dd.toNat)))).toList
        = '-' :: (pad4 (natDigits y.natAbs) ++
          '-' :: (two2 m.toNat ++ '-' :: two2 dd.toNat)) := rfl
    rw [htl]
    have hfil : ('-' :: (pad4 (natDigits y.natAbs) ++
        '-' :: (two2 m.toNat ++ '-' :: two2 dd.toNat))).filter (fun c => !(c == ' ')) =
        '-' :: (pad4 (natDigits y.natAbs) ++
          '-' :: (two2 m.toNat ++ '-' :: two2 dd.toNat)) := by
      apply nospace_filter
      intro c hc
      rcases List.mem_cons.mp hc with rfl | hc2
      · decide
      · exact hmero c hc2
    rw [hfil]
    rw [classify_ymd_neg _ _ _ hp4ne hp4d ht2d ht2len hd2d hd2len]
    dsimp only [Except.bind]
    rw [hp4, hnparse, ht2p, hd2p]
    rw [finish_ymd _ _ _ _ (by omega) (by omega) (by omega) (by omega)]
    rw [if_pos rfl]
    have hcast : -((y.natAbs : Nat) : Int) = y := by omega
    rw [hcast, hcastm, hcastd]
  · have hfmt : FlexiDate.format ⟨y, some m, some dd, .YEAR_MONTH_DAY, .EXACT⟩ =
        String.mk (pad4 (natDigits y.natAbs) ++
          '-' :: (two2 m.toNat ++ '-' :: two2 dd.toNat)) := by
      unfold FlexiDate.format
      rw [if_neg (by simp)]
      dsimp only
      rw [if_neg (by simp), if_neg hy]
      simp
    rw [hfmt]
    unfold parse
    have htl : (String.mk (pad4 (natDigits y.natAbs) ++
        '-' :: (two2 m.toNat ++ '-' :: two2 dd.toNat))).toList
        = pad4 (natDigits y.natAbs) ++
          '-' :: (two2 m.toNat ++ '-' :: two2 dd.toNat) := rfl
    rw [htl]
    rw [nospace_filter _ hmero]
    rw [classify_ymd_pos _ _ _ hp4ne hp4d ht2d ht2len hd2d hd2len]
    dsimp only [Except.bind]
    rw [hp4, hnparse, ht2p, hd2p]
    rw [finish_ymd _ _ _ _ (by omega) (by omega) (by omega) (by omega)]
    rw [if_neg (by decide)]
    have hcast : ((y.natAbs : Nat) : Int) = y := by omega
    rw [hcast, hcastm, hcastd]

theorem format_parse (d : FlexiDate) (hwf : d.wf) (hcirca : d.uncertainty ≠ .CIRCA) :
    parse (FlexiDate.format d) = .ok d := by
  obtain ⟨hshape, hdec⟩ := hwf
  rcases d with ⟨y, m?, d?, p, u⟩
  dsimp only at hshape hdec hcirca
  rcases u with _ | _ | _
  · rcases p with _ | _ | _
    · rcases m? with _ | m
      · rcases d? with _ | dd
        · exact format_parse_exact_year y
        · exact hshape.elim
      · exact hshape.elim
    · rcases m? with _ | m
      · exact hshape.elim
      · rcases d? with _ | dd
        · exact format_parse_ym y m hshape
        · exact hshape.elim
    · rcases m? with _ | m
      · exact hshape.elim
      · rcases d? with _ | dd
        · exact hshape.elim
        · exact format_parse_ymd y m dd hshape.1 hshape.2
  · exact absurd rfl hcirca
  · have hp : p = .YEAR := hdec rfl
    subst hp
    rcases m? with _ | m
    · rcases d? with _ | dd
      · exact format_parse_decade y
      · exact hshape.elim
    · exact hshape.elim

/-- Claim C1: the spec requires parse of the text 44 BC to yield year -44
at year precision, never windowing the two-digit year into a modern
century; the spec-modelled parser does exactly that.  The notebook code,
however, delegates to the dateutil fuzzy parser: the transcript records
parse of 44 BC printing -2044 (windowed to 2044, then negated), the
behaviour the notebook prose itself flags as wrong, so the code diverges
from the claim at this input while 144 BC is unaffected. -/
theorem c1_two_digit_bc_windowed :
    parseNBYear "44 BC" = -2044 ∧ parseNBYear "144 BC" = -144 ∧
    parseNBYear "44 BC" ≠ -44 ∧
    parse "44 BC" = .ok ⟨-44, none, none, .YEAR, .EXACT⟩ := by
  refine ⟨?_, ?_, ?_, ?_⟩ <;> decide

/-- Claim C2: for every text string accepted by parse, formatting the
parsed value and parsing again returns a structurally equal value. -/
theorem c2_parse_format_roundtrip (t : String) (d : FlexiDate)
    (h : parse t = .ok d) : parse (FlexiDate.format d) = .ok d := by
  obtain ⟨hwf, hcirca⟩ := parse_ok_wf t d h
  exact format_parse d hwf hcirca

/-- Witness for claim C2 at the text 44 BC: the parsed value -44 formats
to -0044 and parses back structurally equal. -/
theorem c2_parse_format_roundtrip_witness :
    parse (FlexiDate.format ⟨-44, none, none, .YEAR, .EXACT⟩) =
      .ok ⟨-44, none, none, .YEAR, .EXACT⟩ :=
  c2_parse_format_roundtrip "44 BC" _ (by decide)

/-- Counterexample for claim C3: the claim says the year accessor of the
parsed value for -0400-01-02 yields the integer -400 and not a padded
textual form, so printing it would give -400; the notebook transcript
pins the accessor output as the zero-padded text -0400, which differs
from the decimal text of the integer -400. -/
theorem c3_year_attr_counterexample :
    nbYearAttr "-0400-01-02" ≠ intRepr (-400) ∧
    nbYearAttr "-0400-01-02" = "-0400" ∧ intRepr (-400) = "-400" := by
  refine ⟨?_, ?_, ?_⟩ <;> decide

/-- Claim C3 (amended): parse of -0400-01-02 returns the value denoting
year -400, month 1, day 2; the year accessor of the notebook module
yields the zero-padded textual form -0400, a text whose denoted year
value is -400, rather than the bare integer. -/
theorem c3_year_attr_amended :
    parse "-0400-01-02" = .ok ⟨-400, some 1, some 2, .YEAR_MONTH_DAY, .EXACT⟩ ∧
    nbYearAttr "-0400-01-02" = "-0400" ∧
    parse (nbYearAttr "-0400-01-02") = .ok ⟨-400, none, none, .YEAR, .EXACT⟩ := by
  refine ⟨?_, ?_, ?_⟩ <;> decide

set_option maxRecDepth 8000 in
/-- Counterexample for claim C7: adding the span (0 years, 0 months,
32 days) to 2021-03-30 gives 2021-05-01, and subtracting the date back
yields the canonical decomposition (0, 1, 1), not the original span, so
addSpan followed by subtractDate is not the identity on spans even
without mixed-sign components. -/
theorem c7_roundtrip_counterexample :
    FlexiDate.subtractDate
        (FlexiDate.addSpan ⟨2021, some 3, some 30, .YEAR_MONTH_DAY, .EXACT⟩
          ⟨0, 0, 32⟩)
        ⟨2021, some 3, some 30, .YEAR_MONTH_DAY, .EXACT⟩ =
      ⟨0, 1, 1⟩ ∧
    (⟨0, 1, 1⟩ : FlexiTimeSpan) ≠ ⟨0, 0, 32⟩ := by
  refine ⟨?_, ?_⟩ <;> decide

/-- Claim C7 (amended): subtractDate returns the canonical decomposition
r with other.addSpan(r) == self, the defining property the claim states;
therefore for valid full-precision exact dates a at or before b,
a.addSpan(b.subtractDate(a)) == b, while d.addSpan(s).subtractDate(d)
returns the canonical form of s, which differs from s when s itself is
not canonical (for example when its day count spans a whole month). -/
theorem c7_subtractdate_right_inverse (a b : FlexiDate) (ha : a.wf) (hb : b.wf)
    (hpa : a.precision = .YEAR_MONTH_DAY) (hpb : b.precision = .YEAR_MONTH_DAY)
    (hua : a.uncertainty = .EXACT) (hub : b.uncertainty = .EXACT)
    (hva : a.toDate.valid) (hvb : b.toDate.valid)
    (hle : dateLe a.toDate b.toDate) :
    a.addSpan (b.subtractDate a) = b := by
  have hmain := subtractDate_right_inverse a.toDate b.toDate hva hvb hle
  unfold FlexiDate.addSpan FlexiDate.subtractDate
  rw [hmain]
  rcases b with ⟨yb, mb?, db?, pb, ub⟩
  dsimp only at hpb hub
  subst hpb
  subst hub
  obtain ⟨hshapeb, _⟩ := hb
  rcases mb? with _ | mb
  · exact hshapeb.elim
  · rcases db? with _ | db
    · exact hshapeb.elim
    · unfold FlexiDate.ofDate FlexiDate.toDate
      dsimp only
      rw [hua]
      simp

/-- Witness for claim C7 at a = 2020-01-31 and b = 2020-03-01: the
canonical difference applied back to a returns b. -/
theorem c7_subtractdate_right_inverse_witness :
    FlexiDate.addSpan ⟨2020, some 1, some 31, .YEAR_MONTH_DAY, .EXACT⟩
        (FlexiDate.subtractDate ⟨2020, some 3, some 1, .YEAR_MONTH_DAY, .EXACT⟩
          ⟨2020, some 1, some 31, .YEAR_MONTH_DAY, .EXACT⟩) =
      ⟨2020, some 3, some 1, .YEAR_MONTH_DAY, .EXACT⟩ :=
  c7_subtractdate_right_inverse _ _ (by decide) (by decide) rfl rfl rfl rfl
    (by decide) (by decide) (by decide)

/-- Claim C8: failures occur only in constructors and parsing, which
reject synchronously and atomically, while the arithmetic operations are
total: addSpan of any span on any valid date yields a valid date because
normalization absorbs every overflow, range addSpan re-sorts its bounds
so the invariant survives, and the span operations are pure componentwise
functions; by contrast the checked constructors and parse return errors
on bad input. -/
theorem c8_failures_only_in_construct_and_parse :
    (∀ (dt : Date) (s : FlexiTimeSpan), dt.valid → (Date.addSpan dt s).valid) ∧
    (∀ (r : FlexiDateRange) (s : FlexiTimeSpan),
      ¬ FlexiDate.compare (FlexiDateRange.addSpan r s).low
          (FlexiDateRange.addSpan r s).high = .gt) ∧
    FlexiDate.construct 2020 (some 13) none .EXACT = .error .rangeError ∧
    FlexiDate.construct 2020 none (some 5) .EXACT = .error .rangeError ∧
    FlexiTimeSpanRange.construct ⟨1, 0, 0⟩ ⟨0, 0, 0⟩ = .error .rangeError ∧
    parse "not a date" = .error .parseError ∧
    parse "44" = .error .parseError :=
  ⟨fun dt s h => addSpan_valid dt s h, fun r s => rangeAddSpan_sorted r s,
    by decide, by decide, by decide, by decide, by decide⟩

/-- Witness for claim C8: the clauses applied at concrete inputs, adding
a span that overflows both month and day to the end of January. -/
theorem c8_failures_only_in_construct_and_parse_witness :
    (Date.addSpan ⟨2020, 1, 31⟩ ⟨1, 11, 40⟩).valid :=
  c8_failures_only_in_construct_and_parse.1 ⟨2020, 1, 31⟩ ⟨1, 11, 40⟩ (by decide)

/-- Claim C9: in the NumPy helper get_time_component, the branch
returning None when idx = -1 is unreachable for every input: list.index
never returns -1, so for a component string outside the seven recognized
ones the call raises ValueError instead of returning None, and for each
of the seven recognized strings the index is a valid position in the
7-element array produced by dt2cal. -/
theorem c9_none_branch_unreachable (dt : Int) (comp : String) :
    (dt2cal dt).length = 7 ∧
    get_time_component_np dt comp ≠ .ok none ∧
    (comp ∈ (["y", "m", "d", "h", "min", "s", "ms"] : List String) →
      ∃ i, i < 7 ∧ get_time_component_np dt comp = .ok (some ((dt2cal dt).getD i 0))) ∧
    (comp ∉ (["y", "m", "d", "h", "min", "s", "ms"] : List String) →
      get_time_component_np dt comp = .error .valueError) := by
  have hlen : (dt2cal dt).length = 7 := rfl
  by_cases h1 : comp = "y"
  · subst h1
    have hv : get_time_component_np dt "y" = .ok (some ((dt2cal dt).getD 0 0)) := rfl
    exact ⟨hlen, by rw [hv]; simp, fun _ => ⟨0, by omega, hv⟩,
      fun hno => absurd (by simp) hno⟩
  by_cases h2 : comp = "m"
  · subst h2
    have hv : get_time_component_np dt "m" = .ok (some ((dt2cal dt).getD 1 0)) := rfl
    exact ⟨hlen, by rw [hv]; simp, fun _ => ⟨1, by omega, hv⟩,
      fun hno => absurd (by simp) hno⟩
  by_cases h3 : comp = "d"
  · subst h3
    have hv : get_time_component_np dt "d" = .ok (some ((dt2cal dt).getD 2 0)) := rfl
    exact ⟨hlen, by rw [hv]; simp, fun _ => ⟨2, by omega, hv⟩,
      fun hno => absurd (by simp) hno⟩
  by_cases h4 : comp = "h"
  · subst h4
    have hv : get_time_component_np dt "h" = .ok (some ((dt2cal dt).getD 3 0)) := rfl
    exact ⟨hlen, by rw [hv]; simp, fun _ => ⟨3, by omega, hv⟩,
      fun hno => absurd (by simp) hno⟩
  by_cases h5 : comp = "min"
  · subst h5
    have hv : get_time_component_np dt "min" = .ok (some ((dt2cal dt).getD 4 0)) := rfl
    exact ⟨hlen, by rw [hv]; simp, fun _ => ⟨4, by omega, hv⟩,
      fun hno => absurd (by simp) hno⟩
  by_cases h6 : comp = "s"
  · subst h6
    have hv : get_time_component_np dt "s" = .ok (some ((dt2cal dt).getD 5 0)) := rfl
    exact ⟨hlen, by rw [hv]; simp, fun _ => ⟨5, by omega, hv⟩,
      fun hno => absurd (by simp) hno⟩
  by_cases h7 : comp = "ms"
  · subst h7
    have hv : get_time_component_np dt "ms" = .ok (some ((dt2cal dt).getD 6 0)) := rfl
    exact ⟨hlen, by rw [hv]; simp, fun _ => ⟨6, by omega, hv⟩,
      fun hno => absurd (by simp) hno⟩
  have h1' : ¬ ("y" = comp) := fun he => h1 he.symm
  have h2' : ¬ ("m" = comp) := fun he => h2 he.symm
  have h3' : ¬ ("d" = comp) := fun he => h3 he.symm
  have h4' : ¬ ("h" = comp) := fun he => h4 he.symm
  have h5' : ¬ ("min" = comp) := fun he => h5 he.symm
  have h6' : ¬ ("s" = comp) := fun he => h6 he.symm
  have h7' : ¬ ("ms" = comp) := fun he => h7 he.symm
  have hp : pyIndex ["y", "m", "d", "h", "min", "s", "ms"] comp = .error .valueError := by
    simp [pyIndex, Except.map, h1', h2', h3', h4', h5', h6', h7']
  have herr : get_time_component_np dt comp = .error .valueError := by
    unfold get_time_component_np
    rw [hp]
  refine ⟨hlen, by rw [herr]; simp, ?_, fun _ => herr⟩
  intro hmem
  simp only [List.mem_cons, List.not_mem_nil, or_false] at hmem
  rcases hmem with h | h | h | h | h | h | h <;> simp_all

/-- Witness for claim C9 at a concrete timestamp and the component min:
the returned value is the minute entry of the calendar array, and an
unknown component raises ValueError rather than returning None. -/
theorem c9_none_branch_unreachable_witness :
    ∃ i, i < 7 ∧ get_time_component_np 1234567890123456 "min" =
      .ok (some ((dt2cal 1234567890123456).getD i 0)) :=
  (c9_none_branch_unreachable 1234567890123456 "min").2.2.1 (by simp)

theorem pyFind_head (c : Char) (r : List Char) : pyFind (c :: r) c = 0 := by
  simp [pyFind]

theorem pyFind_cons (c t : Char) (r : List Char) (h : ¬ c = t) :
    pyFind (c :: r) t = if pyFind r t = -1 then -1 else pyFind r t + 1 := by
  rw [pyFind, if_neg h]

theorem pyFind_cons_val (c t : Char) (r : List Char) (h : ¬ c = t) (k : Int)
    (hk : pyFind r t = k) (hk0 : 0 ≤ k) : pyFind (c :: r) t = k + 1 := by
  rw [pyFind_cons c t r h, hk, if_neg (by omega)]

theorem len4_cases (l : List Nat) (h : l.length = 4) :
    ∃ a b c d, l = [a, b, c, d] := by
  rcases l with _ | ⟨a, l⟩
  · simp at h
  rcases l with _ | ⟨b, l⟩
  · simp at h
  rcases l with _ | ⟨c, l⟩
  · simp at h
  rcases l with _ | ⟨d, l⟩
  · simp at h
  rcases l with _ | ⟨e, l⟩
  · exact ⟨a, b, c, d, rfl⟩
  · simp at h

theorem len5_cases (l : List Nat) (h : l.length = 5) :
    ∃ a b c d e, l = [a, b, c, d, e] := by
  rcases l with _ | ⟨a, l⟩
  · simp at h
  obtain ⟨b, c, d, e, rfl⟩ := len4_cases l (by simpa using h)
  exact ⟨a, b, c, d, e, rfl⟩

theorem natBE4 (a b c d : Nat) :
    natOfDigitsBE [a, b, c, d] = 1000 * a + 100 * b + 10 * c + d := by
  simp [natOfDigitsBE, List.foldl]
  omega

theorem natBE5 (a b c d e : Nat) :
    natOfDigitsBE [a, b, c, d, e] =
      10000 * a + 1000 * b + 100 * c + 10 * d + e := by
  simp [natOfDigitsBE, List.foldl]
  omega

theorem strptimeY_render (a b c d4 : Nat) (mo dd h mi s : Nat) (frac : List Nat)
    (ha : a < 10) (hb : b < 10) (hc : c < 10) (hd4 : d4 < 10)
    (hy1 : 1 ≤ 1000 * a + 100 * b + 10 * c + d4)
    (hmo : 1 ≤ mo ∧ mo ≤ 12)
    (hdd : 1 ≤ dd ∧ ((dd : Nat) : Int) ≤
      monthLength (isLeapYear ((1000 * a + 100 * b + 10 * c + d4 : Nat) : Int))
        ((mo : Nat) : Int))
    (hh : h ≤ 23) (hmi : mi ≤ 59) (hs : s ≤ 59)
    (hfr : ∀ x ∈ frac, x < 10) (hfl : 1 ≤ frac.length ∧ frac.length ≤ 6) :
    strptimeY (Nat.digitChar a :: Nat.digitChar b :: Nat.digitChar c ::
      Nat.digitChar d4 :: '-' :: (two2 mo ++ '-' :: (two2 dd ++ 'T' ::
        (two2 h ++ ':' :: (two2 mi ++ ':' :: (two2 s ++ '.' ::
          frac.map Nat.digitChar)))))) =
      some ((1000 * a + 100 * b + 10 * c + d4 : Nat) : Int) := by
  have ea := digitChar_isDigit a ha
  have eb := digitChar_isDigit b hb
  have ec := digitChar_isDigit c hc
  have ed4 := digitChar_isDigit d4 hd4
  have hml := monthLength_bounds
    (isLeapYear ((1000 * a + 100 * b + 10 * c + d4 : Nat) : Int))
    ((mo : Nat) : Int) (by omega) (by omega)
  have hdd31 : dd ≤ 31 := by omega
  have emo1 := digitChar_isDigit (mo / 10) (by omega)
  have emo0 := digitChar_isDigit (mo % 10) (by omega)
  have edd1 := digitChar_isDigit (dd / 10) (by omega)
  have edd0 := digitChar_isDigit (dd % 10) (by omega)
  have eh1 := digitChar_isDigit (h / 10) (by omega)
  have eh0 := digitChar_isDigit (h % 10) (by omega)
  have emi1 := digitChar_isDigit (mi / 10) (by omega)
  have emi0 := digitChar_isDigit (mi % 10) (by omega)
  have es1 := digitChar_isDigit (s / 10) (by omega)
  have es0 := digitChar_isDigit (s % 10) (by omega)
  have hlist : (Nat.digitChar a :: Nat.digitChar b :: Nat.digitChar c ::
      Nat.digitChar d4 :: '-' :: (two2 mo ++ '-' :: (two2 dd ++ 'T' ::
        (two2 h ++ ':' :: (two2 mi ++ ':' :: (two2 s ++ '.' ::
          frac.map Nat.digitChar)))))) =
      Nat.digitChar a :: Nat.digitChar b :: Nat.digitChar c ::
      Nat.digitChar d4 :: '-' :: Nat.digitChar (mo / 10) :: Nat.digitChar (mo % 10) ::
      '-' :: Nat.digitChar (dd / 10) :: Nat.digitChar (dd % 10) :: 'T' ::
      Nat.digitChar (h / 10) :: Nat.digitChar (h % 10) :: ':' ::
      Nat.digitChar (mi / 10) :: Nat.digitChar (mi % 10) :: ':' ::
      Nat.digitChar (s / 10) :: Nat.digitChar (s % 10) :: '.' ::
      frac.map Nat.digitChar := by
    simp [two2]
  rw [hlist]
  unfold strptimeY
  dsimp only
  rw [if_pos]
  · rw [ea.2, eb.2, ec.2, ed4.2]
  · refine ⟨⟨ea.1, eb.1, ec.1, ed4.1⟩, ⟨emo1.1, emo0.1⟩, ⟨edd1.1, edd0.1⟩,
      ⟨eh1.1, eh0.1⟩, ⟨emi1.1, emi0.1⟩, ⟨es1.1, es0.1⟩,
      ⟨rfl, rfl, rfl, rfl, rfl, rfl⟩, ⟨?_, ?_, ?_⟩, ?_, ⟨?_, ?_⟩, ⟨?_, ?_⟩,
      ?_, ?_, ?_⟩
    · rw [List.all_eq_true]
      intro x hx
      rw [List.mem_map] at hx
      obtain ⟨dxy, hdxy, rfl⟩ := hx
      exact (digitChar_isDigit dxy (hfr dxy hdxy)).1
    · rw [List.length_map]
      exact hfl.1
    · rw [List.length_map]
      exact hfl.2
    · rw [ea.2, eb.2, ec.2, ed4.2]
      omega
    · rw [emo1.2, emo0.2]
      omega
    · rw [emo1.2, emo0.2]
      omega
    · rw [edd1.2, edd0.2]
      omega
    · rw [edd1.2, edd0.2, ea.2, eb.2, ec.2, ed4.2, emo1.2, emo0.2]
      have hr1 : 10 * (dd / 10) + dd % 10 = dd := by omega
      have hr2 : 10 * (mo / 10) + mo % 10 = mo := by omega
      rw [hr1, hr2]
      exact hdd.2
    · rw [eh1.2, eh0.2]
      omega
    · rw [emi1.2, emi0.2]
      omega
    · rw [es1.2, es0.2]
      omega

theorem pyFind_digits_dash (l : List Nat) (hl : ∀ x ∈ l, x < 10) (r : List Char) :
    pyFind (l.map Nat.digitChar ++ '-' :: r) '-' = (l.length : Int) := by
  induction l with
  | nil => simpa using pyFind_head '-' r
  | cons x t ih =>
      rw [List.map_cons, List.cons_append]
      rw [pyFind_cons_val _ _ _
        (digit_ne_char _ (digitChar_isDigit x (hl x (by simp))).1).1
        (t.length : Int) (ih (fun z hz => hl z (by simp [hz]))) (by omega)]
      simp [List.length_cons]

/-- Claim C10: the Astropy year helper, on every FITS text of the shape
sign, four or five year digits, then -MM-DDTHH:MM:SS.fff with the
datetime validity ranges (and a trailing four-digit year of at least 1,
within the Astropy range the notebook records), returns the signed year
of the representation: the fifth leading digit is folded in as
leading times 10000 added to the four parsed digits and the BC sign is
applied last. -/
theorem c10_astro_year_extraction (bc : Bool) (yd : List Nat)
    (mo dd h mi s : Nat) (frac : List Nat)
    (hlen : yd.length = 4 ∨ yd.length = 5)
    (hyd : ∀ x ∈ yd, x < 10)
    (hy1 : 1 ≤ natOfDigitsBE (yd.drop (yd.length - 4)))
    (hmo : 1 ≤ mo ∧ mo ≤ 12)
    (hdd : 1 ≤ dd ∧ ((dd : Nat) : Int) ≤
      monthLength
        (isLeapYear ((natOfDigitsBE (yd.drop (yd.length - 4)) : Nat) : Int))
        ((mo : Nat) : Int))
    (hh : h ≤ 23) (hmi : mi ≤ 59) (hs : s ≤ 59)
    (hfr : ∀ x ∈ frac, x < 10) (hfl : 1 ≤ frac.length ∧ frac.length ≤ 6) :
    get_time_component_astro_y (renderFits bc yd mo dd h mi s frac) =
      some ((if bc = true then -1 else 1) * (natOfDigitsBE yd : Int)) := by
  rcases hlen with hl | hl
  · obtain ⟨a, b, c, d4, rfl⟩ := len4_cases yd hl
    have hsim : ([a, b, c, d4] : List Nat).drop (([a, b, c, d4] : List Nat).length - 4)
        = [a, b, c, d4] := rfl
    rw [hsim] at hy1 hdd
    rw [natBE4] at hy1 hdd
    have hda := digitChar_isDigit a (hyd a (by simp))
    have hdb := digitChar_isDigit b (hyd b (by simp))
    have hdc := digitChar_isDigit c (hyd c (by simp))
    have hdd4 := digitChar_isDigit d4 (hyd d4 (by simp))
    have hsr := strptimeY_render a b c d4 mo dd h mi s frac
      (hyd a (by simp)) (hyd b (by simp)) (hyd c (by simp)) (hyd d4 (by simp))
      hy1 hmo hdd hh hmi hs hfr hfl
    have hfind : pyFind (Nat.digitChar a :: Nat.digitChar b :: Nat.digitChar c ::
        Nat.digitChar d4 :: '-' :: (two2 mo ++ '-' :: (two2 dd ++ 'T' ::
          (two2 h ++ ':' :: (two2 mi ++ ':' :: (two2 s ++ '.' ::
            frac.map Nat.digitChar)))))) '-' = 4 := by
      have := pyFind_digits_dash [a, b, c, d4] hyd
        (two2 mo ++ '-' :: (two2 dd ++ 'T' :: (two2 h ++ ':' ::
          (two2 mi ++ ':' :: (two2 s ++ '.' :: frac.map Nat.digitChar)))))
      simpa using this
    cases bc
    · have hrf : renderFits false [a, b, c, d4] mo dd h mi s frac =
          Nat.digitChar a :: Nat.digitChar b :: Nat.digitChar c ::
          Nat.digitChar d4 :: '-' :: (two2 mo ++ '-' :: (two2 dd ++ 'T' ::
            (two2 h ++ ':' :: (two2 mi ++ ':' :: (two2 s ++ '.' ::
              frac.map Nat.digitChar))))) := by
        simp [renderFits]
      rw [hrf]
      unfold get_time_component_astro_y
      dsimp only
      rw [if_neg (digit_ne_char _ hda.1).1]
      unfold astroCore
      rw [hfind]
      rw [if_neg (by decide)]
      rw [hsr]
      dsimp only
      rw [natBE4]
      norm_num
    · have hrf : renderFits true [a, b, c, d4] mo dd h mi s frac =
          '-' :: (Nat.digitChar a :: Nat.digitChar b :: Nat.digitChar c ::
          Nat.digitChar d4 :: '-' :: (two2 mo ++ '-' :: (two2 dd ++ 'T' ::
            (two2 h ++ ':' :: (two2 mi ++ ':' :: (two2 s ++ '.' ::
              frac.map Nat.digitChar)))))) := by
        simp [renderFits]
      rw [hrf]
      unfold get_time_component_astro_y
      dsimp only
      rw [if_pos rfl]
      unfold astroCore
      rw [hfind]
      rw [if_neg (by decide)]
      rw [hsr]
      dsimp only
      rw [natBE4]
      norm_num
  · obtain ⟨e0, a, b, c, d4, rfl⟩ := len5_cases yd hl
    have hsim : ([e0, a, b, c, d4] : List Nat).drop
        (([e0, a, b, c, d4] : List Nat).length - 4) = [a, b, c, d4] := rfl
    rw [hsim] at hy1 hdd
    rw [natBE4] at hy1 hdd
    have hde := digitChar_isDigit e0 (hyd e0 (by simp))
    have hda := digitChar_isDigit a (hyd a (by simp))
    have hsr := strptimeY_render a b c d4 mo dd h mi s frac
      (hyd a (by simp)) (hyd b (by simp)) (hyd c (by simp)) (hyd d4 (by simp))
      hy1 hmo hdd hh hmi hs hfr hfl
    have hfind : pyFind (Nat.digitChar e0 :: Nat.digitChar a :: Nat.digitChar b ::
        Nat.digitChar c :: Nat.digitChar d4 :: '-' :: (two2 mo ++ '-' ::
          (two2 dd ++ 'T' :: (two2 h ++ ':' :: (two2 mi ++ ':' ::
            (two2 s ++ '.' :: frac.map Nat.digitChar)))))) '-' = 5 := by
      have := pyFind_digits_dash [e0, a, b, c, d4] hyd
        (two2 mo ++ '-' :: (two2 dd ++ 'T' :: (two2 h ++ ':' ::
          (two2 mi ++ ':' :: (two2 s ++ '.' :: frac.map Nat.digitChar)))))
      simpa using this
    cases bc
    · have hrf : renderFits false [e0, a, b, c, d4] mo dd h mi s frac =
          Nat.digitChar e0 :: Nat.digitChar a :: Nat.digitChar b ::
          Nat.digitChar c :: Nat.digitChar d4 :: '-' :: (two2 mo ++ '-' ::
            (two2 dd ++ 'T' :: (two2 h ++ ':' :: (two2 mi ++ ':' ::
              (two2 s ++ '.' :: frac.map Nat.digitChar))))) := by
        simp [renderFits]
      rw [hrf]
      unfold get_time_component_astro_y
      dsimp only
      rw [if_neg (digit_ne_char _ hde.1).1]
      unfold astroCore
      rw [hfind]
      rw [if_pos (by decide)]
      dsimp only
      rw [hsr]
      dsimp only
      rw [if_pos hde.1, hde.2, natBE5]
      have hite : ∀ (x y : Int), (if false = true then x else y) = y := fun x y => rfl
      rw [hite, hite]
      congr 1
      push_cast
      omega
    · have hrf : renderFits true [e0, a, b, c, d4] mo dd h mi s frac =
          '-' :: (Nat.digitChar e0 :: Nat.digitChar a :: Nat.digitChar b ::
          Nat.digitChar c :: Nat.digitChar d4 :: '-' :: (two2 mo ++ '-' ::
            (two2 dd ++ 'T' :: (two2 h ++ ':' :: (two2 mi ++ ':' ::
              (two2 s ++ '.' :: frac.map Nat.digitChar)))))) := by
        simp [renderFits]
      rw [hrf]
      unfold get_time_component_astro_y
      dsimp only
      rw [if_pos rfl]
      unfold astroCore
      rw [hfind]
      rw [if_pos (by decide)]
      dsimp only
      rw [hsr]
      dsimp only
      rw [if_pos hde.1, hde.2, natBE5]
      have hite : ∀ (x y : Int), (if true = true then x else y) = x := fun x y => rfl
      rw [hite, hite]
      congr 1
      push_cast
      omega

/-- Witness for claim C10 at the transcript input -04799-01-01T01:23:45.000:
the returned year is -4799. -/
theorem c10_astro_year_extraction_witness :
    get_time_component_astro_y
        (renderFits true [0, 4, 7, 9, 9] 1 1 1 23 45 [0, 0, 0]) =
      some ((if true = true then -1 else 1) * ((natOfDigitsBE [0, 4, 7, 9, 9] : Nat) : Int)) :=
  c10_astro_year_extraction true [0, 4, 7, 9, 9] 1 1 1 23 45 [0, 0, 0]
    (by decide) (by decide) (by decide) (by decide) (by decide) (by decide)
    (by decide) (by decide) (by decide) (by decide)

end FastBlog
